import Mathlib

/-!
Verification development for the hen-utils analysis scripts
(`src/python/henUtils/queryUtils.py`).

The Python code is shallowly embedded: JSON dictionaries become association
lists (`List (String × β)`) or lookup functions (`String → Option β`), the
paginated fetch loop becomes a fuel-indexed recursive function over an
abstract `remote` page source and an abstract on-disk `cache`, ISO-8601
timestamps (always compared after `strptime` parsing, which is a strictly
monotone map into a linear order) are modelled by `Nat`, and tez amounts
(floats obtained as `amount / 1e6`) are modelled by `ℚ`.  Code that can
raise a Python exception is modelled with `Option`/`Except`.
-/

set_option autoImplicit false

universe u v

/-- First-match lookup in an association list; Python `d[k]` / `k in d`
semantics for dictionaries, whose keys are unique. -/
def alookup {κ : Type u} {β : Type v} [DecidableEq κ] (k : κ) :
    List (κ × β) → Option β
  | [] => none
  | kv :: rest => if kv.1 = k then some kv.2 else alookup k rest

/-- Python dictionary assignment `d[k] = v` on an association list:
replace the binding in place if the key exists, otherwise append. -/
def dictSet {κ : Type u} {β : Type v} [DecidableEq κ]
    (m : List (κ × β)) (k : κ) (v : β) : List (κ × β) :=
  match m with
  | [] => [(k, v)]
  | kv :: rest => if kv.1 = k then (k, v) :: rest else kv :: dictSet rest k v

/-- Python dictionary assignment on a map modelled as a lookup function. -/
def fset {κ : Type u} {β : Type v} [DecidableEq κ]
    (m : κ → Option β) (k : κ) (v : β) : κ → Option β :=
  fun k' => if k' = k then some v else m k'

theorem alookup_append {κ : Type u} {β : Type v} [DecidableEq κ]
    (k : κ) (l₁ l₂ : List (κ × β)) :
    alookup k (l₁ ++ l₂) =
      match alookup k l₁ with
      | some v => some v
      | none => alookup k l₂ := by
  induction l₁ with
  | nil => simp [alookup]
  | cons kv rest ih =>
    by_cases h : kv.1 = k <;> simp [alookup, h, ih]

theorem dictSet_alookup {κ : Type u} {β : Type v} [DecidableEq κ]
    (m : List (κ × β)) (k k' : κ) (v : β) :
    alookup k' (dictSet m k v) = if k' = k then some v else alookup k' m := by
  induction m with
  | nil =>
    by_cases h : k' = k
    · subst h; simp [dictSet, alookup]
    · simp [dictSet, alookup, h, Ne.symm h]
  | cons kv rest ih =>
    by_cases h1 : kv.1 = k
    · by_cases h2 : k' = k
      · subst h2; simp [dictSet, alookup, h1]
      · simp [dictSet, alookup, h1, h2, Ne.symm h2]
    · by_cases h3 : kv.1 = k'
      · have h2 : ¬ k' = k := fun hh => h1 (hh ▸ h3)
        simp [dictSet, alookup, h1, h2, h3]
      · simp [dictSet, alookup, h1, h3, ih]

theorem fset_eq {κ : Type u} {β : Type v} [DecidableEq κ]
    (m : κ → Option β) (k : κ) (v : β) : fset m k v k = some v := by
  simp [fset]

theorem fset_ne {κ : Type u} {β : Type v} [DecidableEq κ]
    (m : κ → Option β) (k k' : κ) (v : β) (h : k' ≠ k) :
    fset m k v k' = m k' := by
  simp [fset, h]

/-! ## Relevance filter (`extract_relevant_transaction_information`) -/

/-- A transaction record as returned by the indexer API: a JSON object,
modelled as an association list from field names to (opaque) field values. -/
abbrev Tx := List (String × String)

/-- The allow-list of fields kept by the relevance filter
(`queryUtils.py` lines 244-245). -/
def relevant_keywords : List String :=
  ["timestamp", "initiator", "sender", "target", "amount", "parameter"]

/-- The dictionary comprehension applied to a single transaction:
`{keyword: transaction[keyword] for keyword in relevant_keywords
  if keyword in transaction}`. -/
def extract_relevant_one (tx : Tx) : Tx :=
  relevant_keywords.filterMap (fun k => (alookup k tx).map (fun v => (k, v)))

/-- `extract_relevant_transaction_information` (lines 227-252): shrink every
transaction of a page to the allow-listed fields. -/
def extract_relevant_transaction_information (transactions : List Tx) : List Tx :=
  transactions.map extract_relevant_one

theorem extract_relevant_one_keys (tx : Tx) (kv : String × String)
    (h : kv ∈ extract_relevant_one tx) : kv.1 ∈ relevant_keywords := by
  rcases List.mem_filterMap.mp h with ⟨k, hk, hmap⟩
  rcases Option.map_eq_some'.mp hmap with ⟨v, _, hv⟩
  subst hv
  exact hk

/-! ## Paginated fetch with disk cache (`get_all_transactions`, `get_bigmap_keys`)

The per-contract `while True` loop (lines 328-361 for transactions,
398-429 for bigmap keys) is modelled by `fetchPages`.  The remote indexer
is a function from batch index to the page it serves for that offset range;
the cache directory is a function from batch index to the optionally
present cache file for that offset range (file names are deterministic in
(type, contract, offset range), so for a fixed resource the batch index
identifies the file).  Since the loop has no bound in the source, the model
takes a fuel argument; `none` means the fuel was exhausted before the loop
broke.  The result records, besides the accumulated record list, the cache
files written, the batch indices fetched from the network, and the batch
index at which the loop stopped. -/

structure FetchResult (α : Type u) where
  records : List α
  writes : List (Nat × List α)
  fetched : List Nat
  stop : Nat
  deriving DecidableEq, Repr

/-- One per-contract pagination loop.  `f` is the transformation applied to
a page before appending it to the output (`extract_relevant_transaction_information`
for transactions — applied both to pages read from cache and to freshly
fetched pages — and the identity for bigmap keys).  A cache hit is read and
appended; a cache miss is fetched from the network and appended, and then
either the loop breaks (short page, nothing written) or the raw fetched
page is written to the cache file and the loop continues.  This mirrors the
statement order of the source: the append happens before the
short-page test, and the save happens after it. -/
def fetchPages {α : Type u} (f : List α → List α) (remote : Nat → List α)
    (cache : Nat → Option (List α)) (batch : Nat) :
    Nat → Nat → Option (FetchResult α)
  | 0, _ => none
  | fuel + 1, i =>
    match cache i with
    | some p =>
      (fetchPages f remote cache batch fuel (i + 1)).map fun r =>
        { r with records := f p ++ r.records }
    | none =>
      if (remote i).length = batch then
        (fetchPages f remote cache batch fuel (i + 1)).map fun r =>
          { r with
              records := f (remote i) ++ r.records
              writes := (i, remote i) :: r.writes
              fetched := i :: r.fetched }
      else
        some ⟨f (remote i), [], [i], i⟩

/-- The per-contract loop of `get_all_transactions` (lines 328-361): pages
read from cache and pages fetched from the network both pass through the
relevance filter before extending the returned list. -/
def get_all_transactions_pages (remote : Nat → List Tx)
    (cache : Nat → Option (List Tx)) (batch fuel : Nat) :
    Option (FetchResult Tx) :=
  fetchPages extract_relevant_transaction_information remote cache batch fuel 0

/-- The per-bigmap-id loop of `get_bigmap_keys` (lines 398-429): pages are
appended unfiltered in both branches. -/
def get_bigmap_keys_pages {α : Type u} (remote : Nat → List α)
    (cache : Nat → Option (List α)) (batch fuel : Nat) :
    Option (FetchResult α) :=
  fetchPages id remote cache batch fuel 0

/-- The outer loop of `get_all_transactions` over its contract list
(line 327): the whole offset sequence is repeated independently per
contract and the filtered pages are concatenated into one list. -/
def get_all_transactions_from (remote : String → Nat → List Tx)
    (cache : String → Nat → Option (List Tx)) (batch fuel : Nat) :
    List String → List Tx → Option (List Tx)
  | [], acc => some acc
  | c :: cs, acc =>
    match get_all_transactions_pages (remote c) (cache c) batch fuel with
    | none => none
    | some r => get_all_transactions_from remote cache batch fuel cs (acc ++ r.records)

/-- `get_all_transactions`, with the network and the cache directory
abstracted into the `remote` and `cache` functions. -/
def get_all_transactions (contracts : List String)
    (remote : String → Nat → List Tx) (cache : String → Nat → Option (List Tx))
    (batch fuel : Nat) : Option (List Tx) :=
  get_all_transactions_from remote cache batch fuel contracts []

/-- The outer loop of `get_bigmap_keys` over its bigmap-id list (line 397). -/
def get_bigmap_keys_from {α : Type u} (remote : String → Nat → List α)
    (cache : String → Nat → Option (List α)) (batch fuel : Nat) :
    List String → List α → Option (List α)
  | [], acc => some acc
  | b :: bs, acc =>
    match get_bigmap_keys_pages (remote b) (cache b) batch fuel with
    | none => none
    | some r => get_bigmap_keys_from remote cache batch fuel bs (acc ++ r.records)

/-- `get_bigmap_keys`, with the network and the cache directory abstracted. -/
def get_bigmap_keys {α : Type u} (bigmap_ids : List String)
    (remote : String → Nat → List α) (cache : String → Nat → Option (List α))
    (batch fuel : Nat) : Option (List α) :=
  get_bigmap_keys_from remote cache batch fuel bigmap_ids []

/-- The concatenation, after applying `f` to each page, of the pages the
remote serves for the `n` consecutive batch indices starting at `i`. -/
def pagesConcat {α : Type u} (f : List α → List α) (remote : Nat → List α)
    (i : Nat) : Nat → List α
  | 0 => []
  | n + 1 => f (remote i) ++ pagesConcat f remote (i + 1) n

/-- The batch indices among the `n` consecutive indices starting at `i`
for which no cache file exists. -/
def uncachedIdxs {α : Type u} (cache : Nat → Option (List α)) (i : Nat) :
    Nat → List Nat
  | 0 => []
  | n + 1 =>
    if (cache i).isSome then uncachedIdxs cache (i + 1) n
    else i :: uncachedIdxs cache (i + 1) n

/-- Master characterization of the pagination loop: if every existing cache
file holds the raw full page the remote serves for its offset range, and
`k` is the first batch index whose remote page is short, then the loop
terminates (with any fuel beyond `k`) having processed exactly batches
`i..k`, fetching exactly the uncached ones, and writing exactly the raw
full fetched pages. -/
theorem fetchPages_run {α : Type u} (f : List α → List α) (remote : Nat → List α)
    (cache : Nat → Option (List α)) (batch k : Nat)
    (hcache : ∀ j p, cache j = some p → p = remote j ∧ p.length = batch)
    (hk : (remote k).length ≠ batch)
    (hmin : ∀ j, j < k → (remote j).length = batch) :
    ∀ fuel i, i ≤ k → k < i + fuel →
      fetchPages f remote cache batch fuel i =
        some ⟨pagesConcat f remote i (k + 1 - i),
              (uncachedIdxs cache i (k - i)).map (fun j => (j, remote j)),
              uncachedIdxs cache i (k - i) ++ [k],
              k⟩ := by
  intro fuel
  induction fuel with
  | zero => intro i h1 h2; omega
  | succ fuel ih =>
    intro i h1 h2
    rcases hc : cache i with _ | p
    · by_cases hik : i = k
      · subst hik
        have e1 : i + 1 - i = 1 := by omega
        have e2 : i - i = 0 := by omega
        simp [fetchPages, hc, hk, e1, e2, pagesConcat, uncachedIdxs]
      · have hlt : i < k := lt_of_le_of_ne h1 hik
        have hfull := hmin i hlt
        have e1 : k + 1 - i = (k + 1 - (i + 1)) + 1 := by omega
        have e2 : k - i = (k - (i + 1)) + 1 := by omega
        rw [e1, e2]
        simp [fetchPages, hc, hfull, ih (i + 1) (by omega) (by omega),
          pagesConcat, uncachedIdxs]
    · obtain ⟨hp, hlen⟩ := hcache i p hc
      have hik : i ≠ k := by
        intro hh; subst hh; rw [hp] at hlen; exact hk hlen
      have hlt : i < k := lt_of_le_of_ne h1 hik
      have e1 : k + 1 - i = (k + 1 - (i + 1)) + 1 := by omega
      have e2 : k - i = (k - (i + 1)) + 1 := by omega
      rw [e1, e2]
      simp [fetchPages, hc, ih (i + 1) (by omega) (by omega),
        pagesConcat, uncachedIdxs, hp]

/-- Unconditional characterization of the loop's side effects: whenever the
loop returns, the fetched batch indices are a list `pre ++ [stop]`; the
indices in `pre` were uncached and their remote pages full; each of them —
and only them — was written to its cache file, with the raw (unfiltered)
remote page as content; the terminating batch `stop` was fetched because it
was uncached, its page is short, and it is never written. -/
theorem fetchPages_writes {α : Type u} (f : List α → List α) (remote : Nat → List α)
    (cache : Nat → Option (List α)) (batch : Nat) :
    ∀ fuel i r, fetchPages f remote cache batch fuel i = some r →
      ∃ pre, r.fetched = pre ++ [r.stop]
        ∧ r.writes = pre.map (fun j => (j, remote j))
        ∧ (∀ j ∈ pre, cache j = none ∧ (remote j).length = batch)
        ∧ cache r.stop = none ∧ (remote r.stop).length ≠ batch := by
  intro fuel
  induction fuel with
  | zero => intro i r h; simp [fetchPages] at h
  | succ fuel ih =>
    intro i r h
    rcases hc : cache i with _ | p
    · rw [fetchPages, hc] at h
      by_cases hfull : (remote i).length = batch
      · rw [if_pos hfull] at h
        rcases Option.map_eq_some'.mp h with ⟨r₁, hr₁, hr⟩
        rcases ih (i + 1) r₁ hr₁ with ⟨pre, hf, hw, hmem, hcs, hss⟩
        subst hr
        refine ⟨i :: pre, ?_, ?_, ?_, hcs, hss⟩
        · simp [hf]
        · simp [hw]
        · intro j hj
          rcases List.mem_cons.mp hj with hj | hj
          · subst hj; exact ⟨hc, hfull⟩
          · exact hmem j hj
      · rw [if_neg hfull] at h
        cases h
        exact ⟨[], rfl, rfl, by simp, hc, hfull⟩
    · rw [fetchPages, hc] at h
      rcases Option.map_eq_some'.mp h with ⟨r₁, hr₁, hr⟩
      rcases ih (i + 1) r₁ hr₁ with ⟨pre, hf, hw, hmem, hcs, hss⟩
      subst hr
      exact ⟨pre, hf, hw, hmem, hcs, hss⟩

/-- Every record the transaction loop returns passed through the relevance
filter, whether it came from a cache file or from the network. -/
theorem fetchPages_records_keys (remote : Nat → List Tx)
    (cache : Nat → Option (List Tx)) (batch : Nat) :
    ∀ fuel i r,
      fetchPages extract_relevant_transaction_information remote cache batch fuel i
        = some r →
      ∀ rec ∈ r.records, ∀ kv ∈ rec, kv.1 ∈ relevant_keywords := by
  intro fuel
  induction fuel with
  | zero => intro i r h; simp [fetchPages] at h
  | succ fuel ih =>
    intro i r h
    have keyLem : ∀ (p : List Tx), ∀ rec ∈ extract_relevant_transaction_information p,
        ∀ kv ∈ rec, kv.1 ∈ relevant_keywords := by
      intro p rec hrec kv hkv
      rcases List.mem_map.mp hrec with ⟨tx, _, htx⟩
      subst htx
      exact extract_relevant_one_keys tx kv hkv
    rcases hc : cache i with _ | p
    · rw [fetchPages, hc] at h
      by_cases hfull : (remote i).length = batch
      · rw [if_pos hfull] at h
        rcases Option.map_eq_some'.mp h with ⟨r₁, hr₁, hr⟩
        subst hr
        intro rec hrec kv hkv
        rcases List.mem_append.mp hrec with hrec | hrec
        · exact keyLem _ rec hrec kv hkv
        · exact ih (i + 1) r₁ hr₁ rec hrec kv hkv
      · rw [if_neg hfull] at h
        cases h
        intro rec hrec kv hkv
        exact keyLem _ rec hrec kv hkv
    · rw [fetchPages, hc] at h
      rcases Option.map_eq_some'.mp h with ⟨r₁, hr₁, hr⟩
      subst hr
      intro rec hrec kv hkv
      rcases List.mem_append.mp hrec with hrec | hrec
      · exact keyLem _ rec hrec kv hkv
      · exact ih (i + 1) r₁ hr₁ rec hrec kv hkv

theorem fetchPages_fetched_uncached {α : Type u} (f : List α → List α)
    (remote : Nat → List α) (cache : Nat → Option (List α)) (batch fuel i : Nat)
    (r : FetchResult α) (h : fetchPages f remote cache batch fuel i = some r) :
    ∀ j ∈ r.fetched, cache j = none := by
  rcases fetchPages_writes f remote cache batch fuel i r h with
    ⟨pre, hf, _, hmem, hcs, _⟩
  intro j hj
  rw [hf] at hj
  rcases List.mem_append.mp hj with hj | hj
  · exact (hmem j hj).1
  · rw [List.mem_singleton.mp hj]
    exact hcs

theorem fetchPages_persist {α : Type u} (f : List α → List α)
    (remote : Nat → List α) (cache : Nat → Option (List α)) (batch fuel i : Nat)
    (r : FetchResult α) (h : fetchPages f remote cache batch fuel i = some r) :
    ∃ pre, r.fetched = pre ++ [r.stop]
      ∧ r.writes = pre.map (fun j => (j, remote j))
      ∧ (∀ j ∈ pre, cache j = none ∧ (remote j).length = batch)
      ∧ (∀ w ∈ r.writes, w.1 ≠ r.stop)
      ∧ cache r.stop = none ∧ (remote r.stop).length ≠ batch := by
  rcases fetchPages_writes f remote cache batch fuel i r h with
    ⟨pre, hf, hw, hmem, hcs, hss⟩
  refine ⟨pre, hf, hw, hmem, ?_, hcs, hss⟩
  intro w hw'
  rw [hw] at hw'
  rcases List.mem_map.mp hw' with ⟨j, hj, hjw⟩
  subst hjw
  intro heq
  have heq' : j = r.stop := heq
  have hj2 := (hmem j hj).2
  rw [heq'] at hj2
  exact hss hj2

/-- Claim C1, counterexample: with a one-record first page holding an extra
`hash` field and batch size 1, the loop returns the filtered record but
writes the raw, unfiltered page to the cache file: the cached records are
not the filtered records, and the non-allow-listed `hash` field appears in
the cached page. -/
theorem get_all_transactions_cache_unfiltered_cex :
    get_all_transactions_pages
      (fun i => if i = 0 then [[("timestamp", "t"), ("hash", "h")]] else [])
      (fun _ => none) 1 2 =
      some ⟨[[("timestamp", "t")]], [(0, [[("timestamp", "t"), ("hash", "h")]])],
            [0, 1], 1⟩
    ∧ ("hash", "h") ∈ [("timestamp", "t"), ("hash", "h")]
    ∧ "hash" ∉ relevant_keywords
    ∧ extract_relevant_transaction_information [[("timestamp", "t"), ("hash", "h")]]
        ≠ [[("timestamp", "t"), ("hash", "h")]] :=
  ⟨by decide, by decide, by decide, by decide⟩

/-- Claim C1 (amended): in `get_all_transactions` the relevance filter is
applied before returning in both the cache-hit and the network-fetch
branches, so every returned record holds only allow-listed fields; but the
cache files are written with the raw unfiltered page exactly as the remote
served it (the filter is applied again when a cache file is read, not
before caching). -/
theorem get_all_transactions_returns_filtered_caches_raw
    (remote : Nat → List Tx) (cache : Nat → Option (List Tx)) (batch fuel : Nat)
    (r : FetchResult Tx)
    (h : get_all_transactions_pages remote cache batch fuel = some r) :
    (∀ rec ∈ r.records, ∀ kv ∈ rec, kv.1 ∈ relevant_keywords) ∧
    (∀ w ∈ r.writes, w.2 = remote w.1) := by
  constructor
  · exact fetchPages_records_keys remote cache batch fuel 0 r h
  · intro w hw
    rcases fetchPages_writes extract_relevant_transaction_information remote cache
        batch fuel 0 r h with ⟨pre, _, hwr, _, _, _⟩
    rw [hwr] at hw
    rcases List.mem_map.mp hw with ⟨j, _, hj⟩
    subst hj
    rfl

theorem get_all_transactions_returns_filtered_caches_raw_witness :
    (get_all_transactions_pages
        (fun i => if i = 0 then [[("timestamp", "t"), ("hash", "h")]] else [])
        (fun _ => none) 1 2 =
      some ⟨[[("timestamp", "t")]], [(0, [[("timestamp", "t"), ("hash", "h")]])],
            [0, 1], 1⟩)
    ∧ ((∀ rec ∈ ([[("timestamp", "t")]] : List Tx), ∀ kv ∈ rec,
          kv.1 ∈ relevant_keywords)
      ∧ (∀ w ∈ ([(0, [[("timestamp", "t"), ("hash", "h")]])] : List (Nat × List Tx)),
          w.2 = (fun i => if i = 0 then [[("timestamp", "t"), ("hash", "h")]] else []) w.1)) :=
  ⟨by decide,
   get_all_transactions_returns_filtered_caches_raw
     (fun i => if i = 0 then [[("timestamp", "t"), ("hash", "h")]] else [])
     (fun _ => none) 1 2
     ⟨[[("timestamp", "t")]], [(0, [[("timestamp", "t"), ("hash", "h")]])], [0, 1], 1⟩
     (by decide)⟩

/-- Claim C2, counterexample: with an empty cache directory and a remote
whose very first page is short, the loop fetches page 0 from the network
(`fetched = [0]`) but writes nothing to the cache (`writes = []`): the
final short page that terminates the pagination loop is not persisted. -/
theorem get_all_transactions_short_page_not_cached_cex :
    get_all_transactions_pages (fun _ => ([] : List Tx)) (fun _ => none) 1 1
      = some ⟨[], [], [0], 0⟩
    ∧ (0 : Nat) ∈ [0]
    ∧ ([] : List (Nat × List Tx)).length = 0 :=
  ⟨by decide, by decide, by decide⟩

/-- Claim C2 (amended): in `get_all_transactions` and `get_bigmap_keys`,
every *full* page fetched from the network because no cache file exists for
its offset range is persisted, raw, to its own cache file; the final short
page that terminates the loop for a contract is fetched and returned but
never written to a cache file. -/
theorem fetch_loops_persist_only_full_pages
    (remoteT : Nat → List Tx) (cacheT : Nat → Option (List Tx))
    {α : Type} (remoteB : Nat → List α) (cacheB : Nat → Option (List α))
    (batch fuel : Nat) :
    (∀ r, get_all_transactions_pages remoteT cacheT batch fuel = some r →
      ∃ pre, r.fetched = pre ++ [r.stop]
        ∧ r.writes = pre.map (fun j => (j, remoteT j))
        ∧ (∀ j ∈ pre, cacheT j = none ∧ (remoteT j).length = batch)
        ∧ (∀ w ∈ r.writes, w.1 ≠ r.stop)
        ∧ cacheT r.stop = none ∧ (remoteT r.stop).length ≠ batch) ∧
    (∀ r, get_bigmap_keys_pages remoteB cacheB batch fuel = some r →
      ∃ pre, r.fetched = pre ++ [r.stop]
        ∧ r.writes = pre.map (fun j => (j, remoteB j))
        ∧ (∀ j ∈ pre, cacheB j = none ∧ (remoteB j).length = batch)
        ∧ (∀ w ∈ r.writes, w.1 ≠ r.stop)
        ∧ cacheB r.stop = none ∧ (remoteB r.stop).length ≠ batch) := by
  constructor
  · intro r h
    exact fetchPages_persist extract_relevant_transaction_information remoteT cacheT
      batch fuel 0 r h
  · intro r h
    exact fetchPages_persist id remoteB cacheB batch fuel 0 r h

theorem fetch_loops_persist_only_full_pages_witness :
    (get_all_transactions_pages
        (fun i => if i = 0 then [[("amount", "1")]] else []) (fun _ => none) 1 3 =
      some ⟨[[("amount", "1")]], [(0, [[("amount", "1")]])], [0, 1], 1⟩)
    ∧ (∃ pre,
        (⟨[[("amount", "1")]], [(0, [[("amount", "1")]])], [0, 1], 1⟩ :
            FetchResult Tx).fetched = pre ++
          [(⟨[[("amount", "1")]], [(0, [[("amount", "1")]])], [0, 1], 1⟩ :
            FetchResult Tx).stop]
        ∧ (⟨[[("amount", "1")]], [(0, [[("amount", "1")]])], [0, 1], 1⟩ :
            FetchResult Tx).writes =
          pre.map (fun j => (j, (fun i => if i = 0 then [[("amount", "1")]] else []) j))
        ∧ (∀ j ∈ pre, (fun _ => (none : Option (List Tx))) j = none
            ∧ ((fun i => if i = 0 then [[("amount", "1")]] else []) j).length = 1)
        ∧ (∀ w ∈ (⟨[[("amount", "1")]], [(0, [[("amount", "1")]])], [0, 1], 1⟩ :
            FetchResult Tx).writes, w.1 ≠ (⟨[[("amount", "1")]],
            [(0, [[("amount", "1")]])], [0, 1], 1⟩ : FetchResult Tx).stop)
        ∧ (fun _ => (none : Option (List Tx)))
            ((⟨[[("amount", "1")]], [(0, [[("amount", "1")]])], [0, 1], 1⟩ :
              FetchResult Tx).stop) = none
        ∧ ((fun i => if i = 0 then [[("amount", "1")]] else [])
            ((⟨[[("amount", "1")]], [(0, [[("amount", "1")]])], [0, 1], 1⟩ :
              FetchResult Tx).stop)).length ≠ 1) :=
  ⟨by decide,
   (fetch_loops_persist_only_full_pages
      (fun i => if i = 0 then [[("amount", "1")]] else []) (fun _ => none)
      (fun _ => ([] : List Nat)) (fun _ => none) 1 3).1 _ (by decide)⟩

/-- Claim C9: under the precondition that cache files agree with the remote
and hold only full pages, and that the remote returns a short page at batch
index `k` (its first short page), the per-contract pagination loops of
`get_all_transactions` and `get_bigmap_keys` terminate, and they terminate
exactly at `k`, the first network-fetched page shorter than the batch size
(`k` is among the fetched indices and is the stop index); the short page
may in particular be empty. -/
theorem pagination_terminates_first_short_page
    (remoteT : Nat → List Tx) (cacheT : Nat → Option (List Tx))
    {α : Type} (remoteB : Nat → List α) (cacheB : Nat → Option (List α))
    (batch fuel kT kB : Nat)
    (hcT : ∀ j p, cacheT j = some p → p = remoteT j ∧ p.length = batch)
    (hkT : (remoteT kT).length < batch)
    (hminT : ∀ j, j < kT → (remoteT j).length = batch)
    (hfuelT : kT < fuel)
    (hcB : ∀ j p, cacheB j = some p → p = remoteB j ∧ p.length = batch)
    (hkB : (remoteB kB).length < batch)
    (hminB : ∀ j, j < kB → (remoteB j).length = batch)
    (hfuelB : kB < fuel) :
    get_all_transactions_pages remoteT cacheT batch fuel =
      some ⟨pagesConcat extract_relevant_transaction_information remoteT 0 (kT + 1),
            (uncachedIdxs cacheT 0 kT).map (fun j => (j, remoteT j)),
            uncachedIdxs cacheT 0 kT ++ [kT], kT⟩ ∧
    get_bigmap_keys_pages remoteB cacheB batch fuel =
      some ⟨pagesConcat id remoteB 0 (kB + 1),
            (uncachedIdxs cacheB 0 kB).map (fun j => (j, remoteB j)),
            uncachedIdxs cacheB 0 kB ++ [kB], kB⟩ := by
  constructor
  · have h := fetchPages_run extract_relevant_transaction_information remoteT cacheT
      batch kT hcT (Nat.ne_of_lt hkT) hminT fuel 0 (Nat.zero_le _) (by omega)
    simpa [get_all_transactions_pages] using h
  · have h := fetchPages_run id remoteB cacheB
      batch kB hcB (Nat.ne_of_lt hkB) hminB fuel 0 (Nat.zero_le _) (by omega)
    simpa [get_bigmap_keys_pages] using h

theorem pagination_terminates_first_short_page_witness :
    ((∀ j p, (fun _ => (none : Option (List Tx))) j = some p →
        p = (fun i => if i = 0 then [[("amount", "1")]] else []) j ∧ p.length = 1)
      ∧ ((fun i => if i = 0 then [[("amount", "1")]] else ([] : List Tx)) 1).length < 1
      ∧ (∀ j, j < 1 → ((fun i => if i = 0 then [[("amount", "1")]] else ([] : List Tx)) j).length = 1)
      ∧ 1 < 2
      ∧ (∀ j p, (fun _ => (none : Option (List Nat))) j = some p →
        p = (fun i => if i = 0 then [7] else []) j ∧ p.length = 1)
      ∧ ((fun i => if i = 0 then [7] else ([] : List Nat)) 1).length < 1
      ∧ (∀ j, j < 1 → ((fun i => if i = 0 then [7] else ([] : List Nat)) j).length = 1)
      ∧ 1 < 2)
    ∧ (get_all_transactions_pages
        (fun i => if i = 0 then [[("amount", "1")]] else []) (fun _ => none) 1 2 =
      some ⟨pagesConcat extract_relevant_transaction_information
              (fun i => if i = 0 then [[("amount", "1")]] else []) 0 2,
            (uncachedIdxs (fun _ => (none : Option (List Tx))) 0 1).map
              (fun j => (j, (fun i => if i = 0 then [[("amount", "1")]] else []) j)),
            uncachedIdxs (fun _ => (none : Option (List Tx))) 0 1 ++ [1], 1⟩ ∧
      get_bigmap_keys_pages (fun i => if i = 0 then [7] else ([] : List Nat))
          (fun _ => none) 1 2 =
        some ⟨pagesConcat id (fun i => if i = 0 then [7] else []) 0 2,
              (uncachedIdxs (fun _ => (none : Option (List Nat))) 0 1).map
                (fun j => (j, (fun i => if i = 0 then [7] else []) j)),
              uncachedIdxs (fun _ => (none : Option (List Nat))) 0 1 ++ [1], 1⟩) := by
  refine ⟨⟨?_, ?_, ?_, ?_, ?_, ?_, ?_, ?_⟩, ?_⟩
  · intro j p h; exact Option.noConfusion h
  · decide
  · intro j hj
    have hj0 : j = 0 := by omega
    subst hj0; decide
  · decide
  · intro j p h; exact Option.noConfusion h
  · decide
  · intro j hj
    have hj0 : j = 0 := by omega
    subst hj0; decide
  · decide
  · exact pagination_terminates_first_short_page
      (fun i => if i = 0 then [[("amount", "1")]] else []) (fun _ => none)
      (fun i => if i = 0 then [7] else []) (fun _ => none) 1 2 1 1
      (fun j p h => Option.noConfusion h) (by decide)
      (fun j hj => by
        have hj0 : j = 0 := by omega
        subst hj0; decide) (by decide)
      (fun j p h => Option.noConfusion h) (by decide)
      (fun j hj => by
        have hj0 : j = 0 := by omega
        subst hj0; decide) (by decide)

/-- With both caches consistent with the remote (raw full pages only) and a
first short page at `K c` for each contract, the outer transaction loop
computes the same concatenated list regardless of which pages happen to be
cached, and it returns successfully. -/
theorem get_all_transactions_from_cache_irrelevant
    (remote : String → Nat → List Tx) (cache1 cache2 : String → Nat → Option (List Tx))
    (K : String → Nat) (batch fuel : Nat) :
    ∀ cs acc,
      (∀ c ∈ cs, (∀ j p, cache1 c j = some p → p = remote c j ∧ p.length = batch)
        ∧ (∀ j p, cache2 c j = some p → p = remote c j ∧ p.length = batch)
        ∧ (remote c (K c)).length ≠ batch
        ∧ (∀ j, j < K c → (remote c j).length = batch)
        ∧ K c < fuel) →
      get_all_transactions_from remote cache1 batch fuel cs acc
        = get_all_transactions_from remote cache2 batch fuel cs acc
      ∧ (get_all_transactions_from remote cache1 batch fuel cs acc).isSome := by
  intro cs
  induction cs with
  | nil =>
    intro acc _
    exact ⟨rfl, by simp [get_all_transactions_from]⟩
  | cons c cs ih =>
    intro acc h
    obtain ⟨hc1, hc2, hs, hm, hf⟩ := h c (by simp)
    have e1 := fetchPages_run extract_relevant_transaction_information (remote c)
      (cache1 c) batch (K c) hc1 hs hm fuel 0 (Nat.zero_le _) (by omega)
    have e2 := fetchPages_run extract_relevant_transaction_information (remote c)
      (cache2 c) batch (K c) hc2 hs hm fuel 0 (Nat.zero_le _) (by omega)
    have htail : ∀ c' ∈ cs, (∀ j p, cache1 c' j = some p → p = remote c' j ∧ p.length = batch)
        ∧ (∀ j p, cache2 c' j = some p → p = remote c' j ∧ p.length = batch)
        ∧ (remote c' (K c')).length ≠ batch
        ∧ (∀ j, j < K c' → (remote c' j).length = batch)
        ∧ K c' < fuel := by
      intro c' hc'
      exact h c' (List.mem_cons_of_mem _ hc')
    have := ih (acc ++ pagesConcat extract_relevant_transaction_information
      (remote c) 0 (K c + 1)) htail
    rw [get_all_transactions_from, get_all_transactions_from]
    simp only [get_all_transactions_pages, e1, e2, Nat.sub_zero]
    exact this

/-- Bigmap-keys version of `get_all_transactions_from_cache_irrelevant`. -/
theorem get_bigmap_keys_from_cache_irrelevant {α : Type u}
    (remote : String → Nat → List α) (cache1 cache2 : String → Nat → Option (List α))
    (K : String → Nat) (batch fuel : Nat) :
    ∀ bs acc,
      (∀ b ∈ bs, (∀ j p, cache1 b j = some p → p = remote b j ∧ p.length = batch)
        ∧ (∀ j p, cache2 b j = some p → p = remote b j ∧ p.length = batch)
        ∧ (remote b (K b)).length ≠ batch
        ∧ (∀ j, j < K b → (remote b j).length = batch)
        ∧ K b < fuel) →
      get_bigmap_keys_from remote cache1 batch fuel bs acc
        = get_bigmap_keys_from remote cache2 batch fuel bs acc
      ∧ (get_bigmap_keys_from remote cache1 batch fuel bs acc).isSome := by
  intro bs
  induction bs with
  | nil =>
    intro acc _
    exact ⟨rfl, by simp [get_bigmap_keys_from]⟩
  | cons b bs ih =>
    intro acc h
    obtain ⟨hc1, hc2, hs, hm, hf⟩ := h b (by simp)
    have e1 := fetchPages_run id (remote b)
      (cache1 b) batch (K b) hc1 hs hm fuel 0 (Nat.zero_le _) (by omega)
    have e2 := fetchPages_run id (remote b)
      (cache2 b) batch (K b) hc2 hs hm fuel 0 (Nat.zero_le _) (by omega)
    have htail : ∀ b' ∈ bs, (∀ j p, cache1 b' j = some p → p = remote b' j ∧ p.length = batch)
        ∧ (∀ j p, cache2 b' j = some p → p = remote b' j ∧ p.length = batch)
        ∧ (remote b' (K b')).length ≠ batch
        ∧ (∀ j, j < K b' → (remote b' j).length = batch)
        ∧ K b' < fuel := by
      intro b' hb'
      exact h b' (List.mem_cons_of_mem _ hb')
    have := ih (acc ++ pagesConcat id (remote b) 0 (K b + 1)) htail
    rw [get_bigmap_keys_from, get_bigmap_keys_from]
    simp only [get_bigmap_keys_pages, e1, e2, Nat.sub_zero]
    exact this

/-- Claim C3: when every existing cache file holds the raw full page the
remote serves for its offset range (which is what any complete or
interrupted previous run leaves behind) and the remote serves the same data
(first short page at `K c` per contract / per bigmap id), re-running
`get_all_transactions` (resp. `get_bigmap_keys`) with any two such cache
states — e.g. an empty cache versus the cache left by a previous full or
partial run — produces the same ordered output list, both runs succeed, and
in any run every batch index fetched from the network is one with no cache
file, i.e. already-cached pages are read from disk instead of re-requested. -/
theorem fetch_all_idempotent_resume
    (contracts : List String) (remote : String → Nat → List Tx)
    (cache1 cache2 : String → Nat → Option (List Tx)) (K : String → Nat)
    {α : Type} (bigmap_ids : List String) (remoteB : String → Nat → List α)
    (cacheB1 cacheB2 : String → Nat → Option (List α)) (KB : String → Nat)
    (batch fuel : Nat)
    (hT : ∀ c ∈ contracts,
      (∀ j p, cache1 c j = some p → p = remote c j ∧ p.length = batch)
      ∧ (∀ j p, cache2 c j = some p → p = remote c j ∧ p.length = batch)
      ∧ (remote c (K c)).length < batch
      ∧ (∀ j, j < K c → (remote c j).length = batch)
      ∧ K c < fuel)
    (hB : ∀ b ∈ bigmap_ids,
      (∀ j p, cacheB1 b j = some p → p = remoteB b j ∧ p.length = batch)
      ∧ (∀ j p, cacheB2 b j = some p → p = remoteB b j ∧ p.length = batch)
      ∧ (remoteB b (KB b)).length < batch
      ∧ (∀ j, j < KB b → (remoteB b j).length = batch)
      ∧ KB b < fuel) :
    get_all_transactions contracts remote cache1 batch fuel
      = get_all_transactions contracts remote cache2 batch fuel
    ∧ (get_all_transactions contracts remote cache1 batch fuel).isSome
    ∧ get_bigmap_keys bigmap_ids remoteB cacheB1 batch fuel
      = get_bigmap_keys bigmap_ids remoteB cacheB2 batch fuel
    ∧ (get_bigmap_keys bigmap_ids remoteB cacheB1 batch fuel).isSome
    ∧ (∀ c r, get_all_transactions_pages (remote c) (cache2 c) batch fuel = some r →
        ∀ j ∈ r.fetched, cache2 c j = none)
    ∧ (∀ b r, get_bigmap_keys_pages (remoteB b) (cacheB2 b) batch fuel = some r →
        ∀ j ∈ r.fetched, cacheB2 b j = none) := by
  have hT' : ∀ c ∈ contracts,
      (∀ j p, cache1 c j = some p → p = remote c j ∧ p.length = batch)
      ∧ (∀ j p, cache2 c j = some p → p = remote c j ∧ p.length = batch)
      ∧ (remote c (K c)).length ≠ batch
      ∧ (∀ j, j < K c → (remote c j).length = batch)
      ∧ K c < fuel := by
    intro c hc
    obtain ⟨h1, h2, h3, h4, h5⟩ := hT c hc
    exact ⟨h1, h2, Nat.ne_of_lt h3, h4, h5⟩
  have hB' : ∀ b ∈ bigmap_ids,
      (∀ j p, cacheB1 b j = some p → p = remoteB b j ∧ p.length = batch)
      ∧ (∀ j p, cacheB2 b j = some p → p = remoteB b j ∧ p.length = batch)
      ∧ (remoteB b (KB b)).length ≠ batch
      ∧ (∀ j, j < KB b → (remoteB b j).length = batch)
      ∧ KB b < fuel := by
    intro b hb
    obtain ⟨h1, h2, h3, h4, h5⟩ := hB b hb
    exact ⟨h1, h2, Nat.ne_of_lt h3, h4, h5⟩
  obtain ⟨heqT, hsomeT⟩ := get_all_transactions_from_cache_irrelevant remote cache1
    cache2 K batch fuel contracts [] hT'
  obtain ⟨heqB, hsomeB⟩ := get_bigmap_keys_from_cache_irrelevant remoteB cacheB1
    cacheB2 KB batch fuel bigmap_ids [] hB'
  refine ⟨heqT, hsomeT, heqB, hsomeB, ?_, ?_⟩
  · intro c r h j hj
    exact fetchPages_fetched_uncached extract_relevant_transaction_information
      (remote c) (cache2 c) batch fuel 0 r h j hj
  · intro b r h j hj
    exact fetchPages_fetched_uncached id (remoteB b) (cacheB2 b) batch fuel 0 r h j hj

theorem fetch_all_idempotent_resume_witness :
    (∀ c ∈ ["c"],
      (∀ (j : Nat) (p : List Tx), (none : Option (List Tx)) = some p →
        p = (if j = 0 then [[("amount", "1")]] else []) ∧ p.length = 1)
      ∧ (∀ (j : Nat) (p : List Tx),
          (if j = 0 then some [[("amount", "1")]] else none) = some p →
          p = (if j = 0 then [[("amount", "1")]] else []) ∧ p.length = 1)
      ∧ ((if (1 : Nat) = 0 then [[("amount", "1")]] else ([] : List Tx))).length < 1
      ∧ (∀ j, j < 1 → ((if j = 0 then [[("amount", "1")]] else ([] : List Tx))).length = 1)
      ∧ (1 : Nat) < 2)
    ∧ (∀ b ∈ ["523"],
      (∀ (j : Nat) (p : List Nat), (none : Option (List Nat)) = some p →
        p = (if j = 0 then [7] else []) ∧ p.length = 1)
      ∧ (∀ (j : Nat) (p : List Nat),
          (if j = 0 then some [7] else none) = some p →
          p = (if j = 0 then [7] else []) ∧ p.length = 1)
      ∧ ((if (1 : Nat) = 0 then [7] else ([] : List Nat))).length < 1
      ∧ (∀ j, j < 1 → ((if j = 0 then [7] else ([] : List Nat))).length = 1)
      ∧ (1 : Nat) < 2)
    ∧ (get_all_transactions ["c"] (fun _ i => if i = 0 then [[("amount", "1")]] else [])
        (fun _ _ => none) 1 2
      = get_all_transactions ["c"] (fun _ i => if i = 0 then [[("amount", "1")]] else [])
        (fun _ j => if j = 0 then some [[("amount", "1")]] else none) 1 2
    ∧ (get_all_transactions ["c"] (fun _ i => if i = 0 then [[("amount", "1")]] else [])
        (fun _ _ => none) 1 2).isSome
    ∧ get_bigmap_keys ["523"] (fun _ i => if i = 0 then [7] else ([] : List Nat))
        (fun _ _ => none) 1 2
      = get_bigmap_keys ["523"] (fun _ i => if i = 0 then [7] else [])
        (fun _ j => if j = 0 then some [7] else none) 1 2
    ∧ (get_bigmap_keys ["523"] (fun _ i => if i = 0 then [7] else ([] : List Nat))
        (fun _ _ => none) 1 2).isSome
    ∧ (∀ (_c : String) (r : FetchResult Tx),
        get_all_transactions_pages (fun i => if i = 0 then [[("amount", "1")]] else [])
          (fun j => if j = 0 then some [[("amount", "1")]] else none) 1 2 = some r →
        ∀ j ∈ r.fetched, (if j = 0 then some [[("amount", "1")]] else none) = none)
    ∧ (∀ (_b : String) (r : FetchResult Nat),
        get_bigmap_keys_pages (fun i => if i = 0 then [7] else ([] : List Nat))
          (fun j => if j = 0 then some [7] else none) 1 2 = some r →
        ∀ j ∈ r.fetched, (if j = 0 then some [7] else none) = none)) := by
  have h1 : ∀ c ∈ ["c"],
      (∀ (j : Nat) (p : List Tx), (none : Option (List Tx)) = some p →
        p = (if j = 0 then [[("amount", "1")]] else []) ∧ p.length = 1)
      ∧ (∀ (j : Nat) (p : List Tx),
          (if j = 0 then some [[("amount", "1")]] else none) = some p →
          p = (if j = 0 then [[("amount", "1")]] else []) ∧ p.length = 1)
      ∧ ((if (1 : Nat) = 0 then [[("amount", "1")]] else ([] : List Tx))).length < 1
      ∧ (∀ j, j < 1 → ((if j = 0 then [[("amount", "1")]] else ([] : List Tx))).length = 1)
      ∧ (1 : Nat) < 2 := by
    intro c _
    refine ⟨?_, ?_, by decide, ?_, by decide⟩
    · intro j p h
      exact Option.noConfusion h
    · intro j p h
      by_cases hj : j = 0
      · subst hj
        simp only [if_pos] at h ⊢
        simp at h
        subst h
        exact ⟨by decide, by decide⟩
      · simp [hj] at h
    · intro j hj
      have hj0 : j = 0 := by omega
      subst hj0
      decide
  have h2 : ∀ b ∈ ["523"],
      (∀ (j : Nat) (p : List Nat), (none : Option (List Nat)) = some p →
        p = (if j = 0 then [7] else []) ∧ p.length = 1)
      ∧ (∀ (j : Nat) (p : List Nat),
          (if j = 0 then some [7] else none) = some p →
          p = (if j = 0 then [7] else []) ∧ p.length = 1)
      ∧ ((if (1 : Nat) = 0 then [7] else ([] : List Nat))).length < 1
      ∧ (∀ j, j < 1 → ((if j = 0 then [7] else ([] : List Nat))).length = 1)
      ∧ (1 : Nat) < 2 := by
    intro b _
    refine ⟨?_, ?_, by decide, ?_, by decide⟩
    · intro j p h
      exact Option.noConfusion h
    · intro j p h
      by_cases hj : j = 0
      · subst hj
        simp only [if_pos] at h ⊢
        simp at h
        subst h
        exact ⟨by decide, by decide⟩
      · simp [hj] at h
    · intro j hj
      have hj0 : j = 0 := by omega
      subst hj0
      decide
  exact ⟨h1, h2,
    fetch_all_idempotent_resume ["c"]
      (fun _ i => if i = 0 then [[("amount", "1")]] else [])
      (fun _ _ => none)
      (fun _ j => if j = 0 then some [[("amount", "1")]] else none)
      (fun _ => 1) ["523"]
      (fun _ i => if i = 0 then [7] else [])
      (fun _ _ => none)
      (fun _ j => if j = 0 then some [7] else none)
      (fun _ => 1) 1 2 h1 h2⟩

/-! ## Bigmap reconstruction (`get_hen_bigmap`, `get_objktcom_bigmap`)

The build loops (lines 483-503 and 580-591) fold the downloaded bigmap key
list into a Python dictionary.  Values of the `registries` and `subjkts
metadata` bigmaps are hex byte strings decoded as UTF-8 with
`errors="replace"`; `bytes.fromhex` raises `ValueError` on a malformed hex
string, which is modelled by `Option`. -/

/-- Value of one hexadecimal digit, or `none` for a non-hex character. -/
def hexDigitVal (c : Char) : Option Nat :=
  if '0' ≤ c ∧ c ≤ '9' then some (c.toNat - '0'.toNat)
  else if 'a' ≤ c ∧ c ≤ 'f' then some (c.toNat - 'a'.toNat + 10)
  else if 'A' ≤ c ∧ c ≤ 'F' then some (c.toNat - 'A'.toNat + 10)
  else none

/-- Python `bytes.fromhex` on a character list: pairs of hex digits, with
spaces allowed between pairs; anything else (odd length, non-hex digit, a
space inside a pair) raises `ValueError`, i.e. `none`. -/
def bytes_fromhex_list : List Char → Option (List Nat)
  | [] => some []
  | ' ' :: rest => bytes_fromhex_list rest
  | c1 :: c2 :: rest => do
    let h ← hexDigitVal c1
    let l ← hexDigitVal c2
    let bs ← bytes_fromhex_list rest
    some ((16 * h + l) :: bs)
  | [_] => none

/-- Python `bytes.fromhex`. -/
def bytes_fromhex (s : String) : Option (List Nat) :=
  bytes_fromhex_list s.data

/-- The U+FFFD replacement character substituted for undecodable content. -/
def replacementChar : Char := '�'

/-- Is `b` a UTF-8 continuation byte? -/
def isCont (b : Nat) : Bool := 0x80 ≤ b ∧ b ≤ 0xBF

/-- Worker for UTF-8 decoding with the standard replacement policy.  The
fuel argument only drives structural termination: every recursive call
consumes at least one byte while spending one unit of fuel, so starting
with `fuel = length` (as `utf8_decode_replace_list` does) the fuel never
runs out before the byte list is exhausted. -/
def utf8_go : Nat → List Nat → List Char
  | 0, _ => []
  | _ + 1, [] => []
  | fuel + 1, b :: rest =>
    if b < 0x80 then Char.ofNat b :: utf8_go fuel rest
    else if 0xC2 ≤ b ∧ b ≤ 0xDF then
      match rest with
      | [] => [replacementChar]
      | c1 :: rest' =>
        if isCont c1 then
          Char.ofNat ((b - 0xC0) * 64 + (c1 - 0x80)) :: utf8_go fuel rest'
        else replacementChar :: utf8_go fuel (c1 :: rest')
    else if 0xE0 ≤ b ∧ b ≤ 0xEF then
      match rest with
      | [] => [replacementChar]
      | c1 :: rest' =>
        if (b = 0xE0 ∧ 0xA0 ≤ c1 ∧ c1 ≤ 0xBF) ∨ (b = 0xED ∧ 0x80 ≤ c1 ∧ c1 ≤ 0x9F)
            ∨ (b ≠ 0xE0 ∧ b ≠ 0xED ∧ isCont c1) then
          match rest' with
          | [] => [replacementChar]
          | c2 :: rest'' =>
            if isCont c2 then
              Char.ofNat ((b - 0xE0) * 4096 + (c1 - 0x80) * 64 + (c2 - 0x80)) ::
                utf8_go fuel rest''
            else replacementChar :: utf8_go fuel (c2 :: rest'')
        else replacementChar :: utf8_go fuel (c1 :: rest')
    else if 0xF0 ≤ b ∧ b ≤ 0xF4 then
      match rest with
      | [] => [replacementChar]
      | c1 :: rest' =>
        if (b = 0xF0 ∧ 0x90 ≤ c1 ∧ c1 ≤ 0xBF) ∨ (b = 0xF4 ∧ 0x80 ≤ c1 ∧ c1 ≤ 0x8F)
            ∨ (b ≠ 0xF0 ∧ b ≠ 0xF4 ∧ isCont c1) then
          match rest' with
          | [] => [replacementChar]
          | c2 :: rest'' =>
            if isCont c2 then
              match rest'' with
              | [] => [replacementChar]
              | c3 :: rest''' =>
                if isCont c3 then
                  Char.ofNat ((b - 0xF0) * 262144 + (c1 - 0x80) * 4096 +
                      (c2 - 0x80) * 64 + (c3 - 0x80)) ::
                    utf8_go fuel rest'''
                else replacementChar :: utf8_go fuel (c3 :: rest''')
            else replacementChar :: utf8_go fuel (c2 :: rest'')
        else replacementChar :: utf8_go fuel (c1 :: rest')
    else replacementChar :: utf8_go fuel rest

/-- UTF-8 decoding with the standard replacement policy
(Python `bytes.decode("utf-8", errors="replace")`): a total function; each
maximal ill-formed subsequence is replaced by one U+FFFD. -/
def utf8_decode_replace_list (bs : List Nat) : List Char :=
  utf8_go bs.length bs

/-- `bytes.decode("utf-8", errors="replace")`. -/
def utf8_decode_replace (bs : List Nat) : String :=
  ⟨utf8_decode_replace_list bs⟩

/-- `bytes.fromhex(s).decode("utf-8", errors="replace")`: fails (raises)
exactly when the hex string is malformed; UTF-8 errors never fail. -/
def hex_utf8_replace (s : String) : Option String :=
  (bytes_fromhex s).map utf8_decode_replace

/-- The four bigmap names `get_hen_bigmap` accepts (line 442). -/
inductive HenName
  | swaps
  | royalties
  | registries
  | subjktsMetadata
  deriving DecidableEq, Repr

/-- One downloaded bigmap key update: `key`, `value` and `active` fields of
the records returned by the `bigmaps/<id>/keys` endpoint.  For the bigmaps
handled here the key and value payloads are modelled as opaque strings
(the `swaps`/`royalties` values are passed through unchanged; the
`registries`/`subjkts metadata` keys and values are hex byte strings). -/
structure HenBigmapKey where
  key : String
  value : String
  active : Bool
  deriving DecidableEq, Repr

/-- A reconstructed HEN bigmap entry: the decoded value plus the update's
`active` flag (`bigmap[key]["active"] = bigmap_key["active"]`, line 501). -/
inductive HenEntry
  | raw (value : String) (active : Bool)
  | user (value : String) (active : Bool)
  | userMetadata (value : String) (active : Bool)
  deriving DecidableEq, Repr

/-- Decoding of one update in the build loop of `get_hen_bigmap`
(lines 485-501): the effective dictionary key together with the entry
stored for it.  `none` models the `ValueError` that `bytes.fromhex` raises
on a malformed hex string (the subsequent `.decode("utf-8",
errors="replace")` never raises). -/
def decode_hen_key (name : HenName) (bk : HenBigmapKey) :
    Option (String × HenEntry) :=
  match name with
  | .swaps => some (bk.key, .raw bk.value bk.active)
  | .royalties => some (bk.key, .raw bk.value bk.active)
  | .registries =>
    (hex_utf8_replace bk.value).map (fun v => (bk.key, .user v bk.active))
  | .subjktsMetadata => do
    let k ← hex_utf8_replace bk.key
    let v ← hex_utf8_replace bk.value
    some (k, .userMetadata v bk.active)

/-- The build loop of `get_hen_bigmap` starting from dictionary `m`:
process the key list in order, aborting at the first decode error. -/
def get_hen_bigmap_build_from (name : HenName) :
    List (String × HenEntry) → List HenBigmapKey → Option (List (String × HenEntry))
  | m, [] => some m
  | m, bk :: rest =>
    match decode_hen_key name bk with
    | some ke => get_hen_bigmap_build_from name (dictSet m ke.1 ke.2) rest
    | none => none

/-- The build loop of `get_hen_bigmap` (lines 483-503), given the
already-downloaded bigmap key list. -/
def get_hen_bigmap_build (name : HenName) (bigmap_keys : List HenBigmapKey) :
    Option (List (String × HenEntry)) :=
  get_hen_bigmap_build_from name [] bigmap_keys

/-- The decoded entry of the last update in the list whose effective key is
`k`, if any. -/
def hen_last_update (name : HenName) (k : String) :
    List HenBigmapKey → Option HenEntry
  | [] => none
  | bk :: rest =>
    match hen_last_update name k rest with
    | some e => some e
    | none =>
      match decode_hen_key name bk with
      | some ke => if ke.1 = k then some ke.2 else none
      | none => none

/-- An objkt.com bigmap value: its `fa2` token-contract field (used by the
token filter at line 587) plus the rest of the payload, opaque. -/
structure ObjktcomValue where
  fa2 : String
  rest : String
  deriving DecidableEq, Repr

/-- One downloaded objkt.com bigmap key update. -/
structure ObjktcomBigmapKey where
  key : String
  value : ObjktcomValue
  active : Bool
  deriving DecidableEq, Repr

/-- The build loop of `get_objktcom_bigmap` (lines 580-591).
`minterOrAll` is the `name == "minter" or token == "all"` condition: when
it holds every update is stored; otherwise an update is stored only when
its value's `fa2` contract is one of the selected token contracts.  The
stored entry is the raw value together with the update's `active` flag. -/
def get_objktcom_bigmap_build (minterOrAll : Bool) (token_contracts : List String)
    (bigmap_keys : List ObjktcomBigmapKey) : List (String × (ObjktcomValue × Bool)) :=
  bigmap_keys.foldl
    (fun m bk =>
      if minterOrAll then dictSet m bk.key (bk.value, bk.active)
      else if bk.value.fa2 ∈ token_contracts then dictSet m bk.key (bk.value, bk.active)
      else m)
    []

/-- The value and active flag of the last update in the list with key `k`
that the objkt.com build includes (i.e. that passes the token filter). -/
def objktcom_last_update (minterOrAll : Bool) (token_contracts : List String)
    (k : String) : List ObjktcomBigmapKey → Option (ObjktcomValue × Bool)
  | [] => none
  | bk :: rest =>
    match objktcom_last_update minterOrAll token_contracts k rest with
    | some e => some e
    | none =>
      if bk.key = k ∧ (minterOrAll ∨ bk.value.fa2 ∈ token_contracts) then
        some (bk.value, bk.active)
      else none

theorem get_hen_bigmap_build_from_alookup (name : HenName) (k : String) :
    ∀ (keys : List HenBigmapKey) (m m' : List (String × HenEntry)),
      get_hen_bigmap_build_from name m keys = some m' →
      alookup k m' =
        match hen_last_update name k keys with
        | some e => some e
        | none => alookup k m := by
  intro keys
  induction keys with
  | nil =>
    intro m m' h
    cases h
    simp [hen_last_update]
  | cons bk rest ih =>
    intro m m' h
    rw [get_hen_bigmap_build_from] at h
    rcases hd : decode_hen_key name bk with _ | ke
    · rw [hd] at h; exact absurd h (by simp)
    · rw [hd] at h
      have := ih (dictSet m ke.1 ke.2) m' h
      rw [this, hen_last_update, hd]
      rcases hen_last_update name k rest with _ | e
      · simp only []
        rw [dictSet_alookup]
        by_cases hk : ke.1 = k
        · subst hk; simp
        · have hk' : ¬ k = ke.1 := fun hh => hk hh.symm
          simp [hk, hk']
      · simp

theorem get_objktcom_bigmap_build_alookup (minterOrAll : Bool)
    (token_contracts : List String) (k : String) :
    ∀ (keys : List ObjktcomBigmapKey) (m : List (String × (ObjktcomValue × Bool))),
      alookup k (keys.foldl
        (fun m bk =>
          if minterOrAll then dictSet m bk.key (bk.value, bk.active)
          else if bk.value.fa2 ∈ token_contracts then dictSet m bk.key (bk.value, bk.active)
          else m) m) =
        match objktcom_last_update minterOrAll token_contracts k keys with
        | some e => some e
        | none => alookup k m := by
  intro keys
  induction keys with
  | nil =>
    intro m
    simp [objktcom_last_update]
  | cons bk rest ih =>
    intro m
    rw [List.foldl_cons, ih, objktcom_last_update]
    rcases objktcom_last_update minterOrAll token_contracts k rest with _ | e
    · simp only []
      by_cases hinc : minterOrAll ∨ bk.value.fa2 ∈ token_contracts
      · have hstep : (if minterOrAll then dictSet m bk.key (bk.value, bk.active)
            else if bk.value.fa2 ∈ token_contracts then dictSet m bk.key (bk.value, bk.active)
            else m) = dictSet m bk.key (bk.value, bk.active) := by
          rcases hinc with hm | hf
          · simp [hm]
          · by_cases hm : minterOrAll
            · simp [hm]
            · simp [hm, hf]
        rw [hstep, dictSet_alookup]
        by_cases hk : bk.key = k
        · subst hk; simp [hinc]
        · have hk' : ¬ k = bk.key := fun hh => hk hh.symm
          simp [hk, hk', hinc]
      · push_neg at hinc
        obtain ⟨hm, hf⟩ := hinc
        simp [hm, hf]
    · simp

theorem get_hen_bigmap_build_from_total (name : HenName) :
    ∀ (keys : List HenBigmapKey) (m : List (String × HenEntry)),
      (∀ bk ∈ keys, (decode_hen_key name bk).isSome) →
      (get_hen_bigmap_build_from name m keys).isSome := by
  intro keys
  induction keys with
  | nil =>
    intro m _
    simp [get_hen_bigmap_build_from]
  | cons bk rest ih =>
    intro m h
    have h1 := h bk (by simp)
    rcases hd : decode_hen_key name bk with _ | ke
    · rw [hd] at h1; simp at h1
    · rw [get_hen_bigmap_build_from, hd]
      exact ih (dictSet m ke.1 ke.2)
        (fun bk' hbk' => h bk' (List.mem_cons_of_mem _ hbk'))

/-- Claim C4, counterexample: `get_objktcom_bigmap` with token `OBJKT`
(token contract `KT1RJ6…`) and two updates for key `"7"`, the later one
carrying a different `fa2`: the later update is skipped by the token filter
at line 587, so the reconstructed entry is the *earlier* update's value and
active flag, not the later update's. -/
theorem get_objktcom_bigmap_filtered_update_cex :
    alookup "7" (get_objktcom_bigmap_build false ["KT1RJ6PbjHpwc3M5rw5s2Nbmefwbuwbdxton"]
      [⟨"7", ⟨"KT1RJ6PbjHpwc3M5rw5s2Nbmefwbuwbdxton", "v1"⟩, true⟩,
       ⟨"7", ⟨"KT1LHHLso8zQWQWg1HUukajdxxbkGfNoHjh6", "v2"⟩, false⟩])
      = some (⟨"KT1RJ6PbjHpwc3M5rw5s2Nbmefwbuwbdxton", "v1"⟩, true)
    ∧ ((⟨"KT1RJ6PbjHpwc3M5rw5s2Nbmefwbuwbdxton", "v1"⟩, true) :
        ObjktcomValue × Bool) ≠ (⟨"KT1LHHLso8zQWQWg1HUukajdxxbkGfNoHjh6", "v2"⟩, false) :=
  ⟨by decide, by decide⟩

/-- Claim C4 (amended): both builds are last-write-wins with no merging,
over the updates the build *includes*: `get_hen_bigmap` includes every
update (the entry for a key is the decoded value and active flag of the
last update with that effective key), and `get_objktcom_bigmap` includes an
update only if `minter`/`all` is selected or the update's `fa2` is one of
the selected token contracts — the entry for a key is the value and active
flag of the last *included* update with that key, so a later excluded
update does not overwrite. -/
theorem bigmap_build_last_write_wins
    (name : HenName) (keys : List HenBigmapKey) (m : List (String × HenEntry))
    (k : String) (h : get_hen_bigmap_build name keys = some m)
    (minterOrAll : Bool) (token_contracts : List String)
    (okeys : List ObjktcomBigmapKey) (ok : String) :
    alookup k m = hen_last_update name k keys
    ∧ alookup ok (get_objktcom_bigmap_build minterOrAll token_contracts okeys)
      = objktcom_last_update minterOrAll token_contracts ok okeys := by
  constructor
  · have hh := get_hen_bigmap_build_from_alookup name k keys [] m h
    rw [hh]
    rcases hen_last_update name k keys with _ | e
    · simp [alookup]
    · simp
  · have hh := get_objktcom_bigmap_build_alookup minterOrAll token_contracts ok okeys []
    simp only [get_objktcom_bigmap_build]
    rw [hh]
    rcases objktcom_last_update minterOrAll token_contracts ok okeys with _ | e
    · simp [alookup]
    · simp

theorem bigmap_build_last_write_wins_witness :
    (get_hen_bigmap_build .swaps [⟨"1", "a", true⟩, ⟨"1", "b", false⟩]
      = some [("1", .raw "b" false)])
    ∧ (alookup "1" [("1", HenEntry.raw "b" false)]
        = hen_last_update .swaps "1" [⟨"1", "a", true⟩, ⟨"1", "b", false⟩]
      ∧ alookup "7" (get_objktcom_bigmap_build false
          ["KT1RJ6PbjHpwc3M5rw5s2Nbmefwbuwbdxton"]
          [⟨"7", ⟨"KT1RJ6PbjHpwc3M5rw5s2Nbmefwbuwbdxton", "v1"⟩, true⟩,
           ⟨"7", ⟨"KT1LHHLso8zQWQWg1HUukajdxxbkGfNoHjh6", "v2"⟩, false⟩])
        = objktcom_last_update false ["KT1RJ6PbjHpwc3M5rw5s2Nbmefwbuwbdxton"] "7"
          [⟨"7", ⟨"KT1RJ6PbjHpwc3M5rw5s2Nbmefwbuwbdxton", "v1"⟩, true⟩,
           ⟨"7", ⟨"KT1LHHLso8zQWQWg1HUukajdxxbkGfNoHjh6", "v2"⟩, false⟩]) :=
  ⟨by decide,
   bigmap_build_last_write_wins .swaps [⟨"1", "a", true⟩, ⟨"1", "b", false⟩]
     [("1", .raw "b" false)] "1" (by decide) false
     ["KT1RJ6PbjHpwc3M5rw5s2Nbmefwbuwbdxton"]
     [⟨"7", ⟨"KT1RJ6PbjHpwc3M5rw5s2Nbmefwbuwbdxton", "v1"⟩, true⟩,
      ⟨"7", ⟨"KT1LHHLso8zQWQWg1HUukajdxxbkGfNoHjh6", "v2"⟩, false⟩] "7"⟩

/-- Claim C7, counterexample: a `registries` bigmap key whose value is not
a valid hex string (`"zz"`): `bytes.fromhex` raises `ValueError`
(`errors="replace"` only applies to the UTF-8 decoding step), so the build
aborts instead of substituting a replacement character. -/
theorem get_hen_bigmap_malformed_hex_aborts_cex :
    get_hen_bigmap_build .registries [⟨"tz1W", "zz", true⟩] = none
    ∧ bytes_fromhex "zz" = none :=
  ⟨by decide, by decide⟩

/-- Claim C7 (amended): in the `registries` and `subjkts metadata` branches
of `get_hen_bigmap`, *invalid UTF-8* in a (well-formed hex) key or value
never aborts the build — undecodable bytes are replaced with U+FFFD and the
complete bigmap is still returned; a *malformed hex string*, however,
raises `ValueError` and aborts the whole build.  Concretely: whenever every
update decodes (for `registries`, exactly when every value is well-formed
hex), the build returns a bigmap; and a well-formed-hex value that is not
valid UTF-8 (`"ff"`) yields an entry holding the replacement character. -/
theorem get_hen_bigmap_decode_behavior
    (name : HenName) (keys : List HenBigmapKey)
    (h : ∀ bk ∈ keys, (decode_hen_key name bk).isSome) :
    (get_hen_bigmap_build name keys).isSome
    ∧ (∀ bk : HenBigmapKey,
        (decode_hen_key .registries bk).isSome = (bytes_fromhex bk.value).isSome)
    ∧ get_hen_bigmap_build .registries [⟨"tz1W", "ff", true⟩]
      = some [("tz1W", .user "�" true)] := by
  refine ⟨get_hen_bigmap_build_from_total name keys [] h, ?_, by decide⟩
  intro bk
  rcases hb : bytes_fromhex bk.value with _ | bs <;>
    simp [decode_hen_key, hex_utf8_replace, hb]

theorem get_hen_bigmap_decode_behavior_witness :
    (∀ bk ∈ [(⟨"00", "ff", true⟩ : HenBigmapKey)],
      (decode_hen_key .registries bk).isSome)
    ∧ ((get_hen_bigmap_build .registries [⟨"00", "ff", true⟩]).isSome
      ∧ (∀ bk : HenBigmapKey,
          (decode_hen_key .registries bk).isSome = (bytes_fromhex bk.value).isSome)
      ∧ get_hen_bigmap_build .registries [⟨"tz1W", "ff", true⟩]
        = some [("tz1W", .user "�" true)]) :=
  ⟨by decide,
   get_hen_bigmap_decode_behavior .registries [⟨"00", "ff", true⟩] (by decide)⟩

/-! ## Account extraction (`extract_artist_accounts`,
`extract_collector_accounts`, `extract_objktcom_collector_accounts`)

Maps keyed by wallet address are modelled as lookup functions
`String → Option Rec`; insertion order, where needed, is tracked by a
separate key list.  ISO timestamps (compared via `strptime` / `datetime`
comparison in the source) are modelled by `Nat`; tez amounts
(`amount / 1e6`, a Python float) by `ℚ`. -/

/-- The fixed address-prefix test `wallet_id.startswith("tz")` used by the
extractors to keep externally-owned accounts only. -/
def starts_with_tz (s : String) : Bool :=
  match s.data with
  | 't' :: 'z' :: _ => true
  | _ => false

structure Interaction where
  type : String
  timestamp : Nat
  deriving DecidableEq, Repr

/-- The `{"id": …, "timestamp": …}` sub-dictionaries (`first_objkt`,
`last_objkt`, and the objkt.com `first_collect`/`last_collect`). -/
structure ObjktInfo where
  id : String
  timestamp : Nat
  deriving DecidableEq, Repr

/-- A wallet record from the TzKT wallet list: it may or may not carry an
`alias` key. -/
structure TezosWallet where
  «alias» : Option String
  deriving DecidableEq, Repr

/-- The alias-resolution pattern shared by the extractors (lines 907-912,
977-982, …): an on-chain registry name wins; otherwise the wallet-service
alias; otherwise the empty string.  `tezos_wallets[wallet_id]` raises
`KeyError` when the wallet is unknown (modelled by `none`); the registries
entry's `user` field is the resolved name. -/
def resolve_alias (registries_bigmap : String → Option String)
    (tezos_wallets : String → Option TezosWallet) (wallet_id : String) :
    Option String :=
  match registries_bigmap wallet_id with
  | some user => some user
  | none =>
    match tezos_wallets wallet_id with
    | some w =>
      some (match w.«alias» with
        | some a => a
        | none => "")
    | none => none

/-- A mint transaction as consumed by `extract_artist_accounts`:
`initiator.address`, `parameter.value.token_id`, `timestamp`. -/
structure MintTx where
  initiator : String
  token_id : String
  timestamp : Nat
  deriving DecidableEq, Repr

/-- The HEN collector `first_collect`/`last_collect` sub-dictionary:
created with keys `objkt_id` and `timestamp`; the update path adds a
separate `id` key (modelled by the optional `id` field). -/
structure CollectInfo where
  objkt_id : String
  id : Option String
  timestamp : Nat
  deriving DecidableEq, Repr

structure ArtistRec where
  order : Nat
  type : String
  wallet_id : String
  «alias» : String
  reported : Bool
  first_objkt : ObjktInfo
  last_objkt : ObjktInfo
  first_interaction : Interaction
  minted_objkts : List String
  money_spent : List ℚ
  total_money_spent : ℚ
  first_collect : Option CollectInfo := none
  last_collect : Option CollectInfo := none
  deriving DecidableEq, Repr

/-- One iteration of the `extract_artist_accounts` loop (lines 900-941):
contract initiators are skipped; a first sighting creates the account (the
alias lookup can raise `KeyError`, hence `Option`); a subsequent sighting
unconditionally overwrites `last_objkt` and appends to `minted_objkts`. -/
def extract_artist_step (registries_bigmap : String → Option String)
    (tezos_wallets : String → Option TezosWallet)
    (st : (String → Option ArtistRec) × Nat) (transaction : MintTx) :
    Option ((String → Option ArtistRec) × Nat) :=
  if starts_with_tz transaction.initiator then
    match st.1 transaction.initiator with
    | none =>
      (resolve_alias registries_bigmap tezos_wallets transaction.initiator).map
        (fun resolved =>
          (fset st.1 transaction.initiator
            { order := st.2
              type := "artist"
              wallet_id := transaction.initiator
              «alias» := resolved
              reported := false
              first_objkt := ⟨transaction.token_id, transaction.timestamp⟩
              last_objkt := ⟨transaction.token_id, transaction.timestamp⟩
              first_interaction := ⟨"mint", transaction.timestamp⟩
              minted_objkts := [transaction.token_id]
              money_spent := []
              total_money_spent := 0 },
           st.2 + 1))
    | some artist =>
      some (fset st.1 transaction.initiator
        { artist with
            last_objkt := ⟨transaction.token_id, transaction.timestamp⟩
            minted_objkts := artist.minted_objkts ++ [transaction.token_id] },
       st.2)
  else some st

/-- `extract_artist_accounts` (lines 878-943): fold the mint transactions
into the artists map; the counter starts at 1. -/
def extract_artist_accounts (transactions : List MintTx)
    (registries_bigmap : String → Option String)
    (tezos_wallets : String → Option TezosWallet) :
    Option ((String → Option ArtistRec) × Nat) :=
  transactions.foldlM (extract_artist_step registries_bigmap tezos_wallets)
    (fun _ => none, 1)

/-- The `parameter.value` payload of a collect transaction: either a
structured dictionary holding a `swap_id`, or the bare swap id. -/
inductive ParamValue
  | swapDict (swap_id : String)
  | swapScalar (swap_id : String)
  deriving DecidableEq, Repr

/-- The `isinstance(parameters, dict)` dispatch of lines 987-990. -/
def param_swap_id : ParamValue → String
  | .swapDict s => s
  | .swapScalar s => s

/-- A collect transaction as consumed by `extract_collector_accounts`. -/
structure CollectTx where
  sender : String
  parameter : ParamValue
  amount : Nat
  timestamp : Nat
  deriving DecidableEq, Repr

/-- A swaps-bigmap entry, of which only `objkt_id` is consumed here. -/
structure SwapEntry where
  objkt_id : String
  deriving DecidableEq, Repr

structure CollectorRec where
  order : Nat
  type : String
  wallet_id : String
  «alias» : String
  reported : Bool
  first_collect : CollectInfo
  last_collect : CollectInfo
  first_interaction : Interaction
  money_spent : List ℚ
  total_money_spent : ℚ := 0
  deriving DecidableEq, Repr

/-- The loop state of `extract_collector_accounts`: the collectors map with
its insertion-ordered key list, the counter, and the Python local variable
`swap_id`, which is assigned only in the first-sighting branch and
therefore persists across loop iterations (`none` models it being not yet
bound). -/
structure CollState where
  keys : List String
  collectors : String → Option CollectorRec
  counter : Nat
  swap_id : Option String

/-- One iteration of the `extract_collector_accounts` loop (lines 971-1017).
First sighting: resolve the alias, read `swap_id` from the transaction's
parameters, look the swap up (a missing swap id raises `KeyError`, hence
`Option`) and create the record with `objkt_id`/`timestamp` keys.
Subsequent sighting: look up `swaps_bigmap[swap_id]` with the *leftover*
`swap_id` value, store its objkt id under the `id` key of `last_collect`
(leaving the `objkt_id` key untouched), update the `last_collect` timestamp
unconditionally, and append the spent amount. -/
def extract_collector_step (registries_bigmap : String → Option String)
    (tezos_wallets : String → Option TezosWallet)
    (swaps_bigmap : String → Option SwapEntry)
    (st : CollState) (transaction : CollectTx) : Option CollState :=
  if starts_with_tz transaction.sender then
    match st.collectors transaction.sender with
    | none => do
      let resolved ← resolve_alias registries_bigmap tezos_wallets transaction.sender
      let swap_id := param_swap_id transaction.parameter
      let swap ← swaps_bigmap swap_id
      some { keys := st.keys ++ [transaction.sender]
             collectors := fset st.collectors transaction.sender
               { order := st.counter
                 type := "collector"
                 wallet_id := transaction.sender
                 «alias» := resolved
                 reported := false
                 first_collect := ⟨swap.objkt_id, none, transaction.timestamp⟩
                 last_collect := ⟨swap.objkt_id, none, transaction.timestamp⟩
                 first_interaction := ⟨"collect", transaction.timestamp⟩
                 money_spent := [(transaction.amount : ℚ) / 1000000] }
             counter := st.counter + 1
             swap_id := some swap_id }
    | some collector => do
      let sid ← st.swap_id
      let swap ← swaps_bigmap sid
      some { st with
             collectors := fset st.collectors transaction.sender
               { collector with
                   last_collect := { collector.last_collect with
                     id := some swap.objkt_id
                     timestamp := transaction.timestamp }
                   money_spent := collector.money_spent
                     ++ [(transaction.amount : ℚ) / 1000000] } }
  else some st

/-- The final pass of `extract_collector_accounts` (lines 1019-1020):
`collector["total_money_spent"] = sum(collector["money_spent"])` for every
collector, in insertion order. -/
def collector_totals (keys : List String)
    (collectors : String → Option CollectorRec) : String → Option CollectorRec :=
  keys.foldl
    (fun m w =>
      match m w with
      | some c => fset m w { c with total_money_spent := c.money_spent.sum }
      | none => m)
    collectors

/-- `extract_collector_accounts` (lines 946-1022). -/
def extract_collector_accounts (transactions : List CollectTx)
    (registries_bigmap : String → Option String)
    (swaps_bigmap : String → Option SwapEntry)
    (tezos_wallets : String → Option TezosWallet) : Option CollState :=
  (transactions.foldlM
      (extract_collector_step registries_bigmap tezos_wallets swaps_bigmap)
      ⟨[], fun _ => none, 1, none⟩).map
    (fun st => { st with collectors := collector_totals st.keys st.collectors })

/-- An objkt.com fulfilled-ask transaction as consumed by the ask loop of
`extract_objktcom_collector_accounts` (lines 1160-1214): `sender.address`,
`parameter.value` (the ask id), `amount`, `timestamp`. -/
structure AskTx where
  sender : String
  parameter : String
  amount : Nat
  timestamp : Nat
  deriving DecidableEq, Repr

/-- An asks-bigmap entry, of which only `objkt_id` is consumed here. -/
structure AskEntry where
  objkt_id : String
  deriving DecidableEq, Repr

structure ObjktcomCollectorRec where
  type : String
  wallet_id : String
  «alias» : String
  reported : Bool
  first_collect : ObjktInfo
  last_collect : ObjktInfo
  first_interaction : Interaction
  bid_objkts : List String
  bid_money_spent : List ℚ
  bid_timestamps : List Nat
  ask_objkts : List String
  ask_money_spent : List ℚ
  ask_timestamps : List Nat
  english_auction_objkts : List String
  english_auction_money_spent : List ℚ
  english_auction_timestamps : List Nat
  dutch_auction_objkts : List String
  dutch_auction_money_spent : List ℚ
  dutch_auction_timestamps : List Nat
  deriving DecidableEq, Repr

/-- The fresh record created on first sighting in the ask loop
(lines 1168-1193). -/
def objktcom_new_collector (wallet_id : String) (objkt_id : String)
    (timestamp : Nat) (itype : String) : ObjktcomCollectorRec :=
  { type := "collector"
    wallet_id := wallet_id
    «alias» := ""
    reported := false
    first_collect := ⟨objkt_id, timestamp⟩
    last_collect := ⟨objkt_id, timestamp⟩
    first_interaction := ⟨itype, timestamp⟩
    bid_objkts := []
    bid_money_spent := []
    bid_timestamps := []
    ask_objkts := []
    ask_money_spent := []
    ask_timestamps := []
    english_auction_objkts := []
    english_auction_money_spent := []
    english_auction_timestamps := []
    dutch_auction_objkts := []
    dutch_auction_money_spent := []
    dutch_auction_timestamps := [] }

/-- One iteration of the ask loop of `extract_objktcom_collector_accounts`
(lines 1160-1214): the ask is looked up first (`KeyError` on a missing ask
id, hence `Option`); contract senders are skipped; a first sighting inserts
a fresh record; then the three dates are read and `first_collect` /
`first_interaction` are rewritten only when the transaction's date is
strictly earlier than the stored first date, `last_collect` only when it is
strictly later than the stored last date, and the ask channel lists are
appended unconditionally. -/
def objktcom_ask_step (asks_bigmap : String → Option AskEntry)
    (collectors : String → Option ObjktcomCollectorRec) (transaction : AskTx) :
    Option (String → Option ObjktcomCollectorRec) := do
  let ask ← asks_bigmap transaction.parameter
  let amount : ℚ := (transaction.amount : ℚ) / 1000000
  if starts_with_tz transaction.sender then
    let collector :=
      match collectors transaction.sender with
      | some c => c
      | none => objktcom_new_collector transaction.sender ask.objkt_id
          transaction.timestamp "ask"
    let c1 :=
      if transaction.timestamp < collector.first_collect.timestamp then
        { collector with
            first_collect := ⟨ask.objkt_id, transaction.timestamp⟩
            first_interaction := ⟨"ask", transaction.timestamp⟩ }
      else collector
    let c2 :=
      if collector.last_collect.timestamp < transaction.timestamp then
        { c1 with last_collect := ⟨ask.objkt_id, transaction.timestamp⟩ }
      else c1
    let c3 :=
      { c2 with
          ask_objkts := c2.ask_objkts ++ [ask.objkt_id]
          ask_money_spent := c2.ask_money_spent ++ [amount]
          ask_timestamps := c2.ask_timestamps ++ [transaction.timestamp] }
    some (fset collectors transaction.sender c3)
  else some collectors

/-- Claim C5, counterexample: two mints by the same artist where the second
arrives with a strictly *earlier* timestamp (3 < 5): `last_objkt` is
nevertheless overwritten to the second mint, so the `last` pointer follows
arrival order, not timestamp comparison. -/
theorem extract_artist_last_objkt_arrival_order_cex :
    (extract_artist_accounts [⟨"tz1a", "1", 5⟩, ⟨"tz1a", "2", 3⟩]
        (fun _ => none) (fun _ => some ⟨none⟩)).map
        (fun st => (st.1 "tz1a").map (fun a => a.last_objkt))
      = some (some ⟨"2", 3⟩)
    ∧ (3 : Nat) < 5 :=
  ⟨by decide, by decide⟩

/-- Claim C10: in `extract_collector_accounts` the swap id is read from the
transaction's parameters only in the first-sighting branch.  For a sender
already present in the collectors map, (i) the update is computed from the
state's leftover `swap_id` (the one set by the most recent first sighting
of some, possibly different, collector) and is entirely independent of the
current transaction's parameter payload; (ii) the looked-up objkt id is
stored under the `id` key of `last_collect` while the `objkt_id` key
written at first sighting stays unchanged; and (iii) a first sighting is
exactly where the state's `swap_id` is (re)assigned, to the current
transaction's parameter value. -/
theorem extract_collector_stale_swap_id
    (registries_bigmap : String → Option String)
    (tezos_wallets : String → Option TezosWallet)
    (swaps_bigmap : String → Option SwapEntry) (st : CollState)
    (transaction : CollectTx) (c : CollectorRec) (sid : String) (swap : SwapEntry)
    (hs : starts_with_tz transaction.sender = true)
    (hc : st.collectors transaction.sender = some c)
    (hsid : st.swap_id = some sid)
    (hswap : swaps_bigmap sid = some swap) :
    (extract_collector_step registries_bigmap tezos_wallets swaps_bigmap st
        transaction =
      some { st with
             collectors := fset st.collectors transaction.sender
               { c with
                   last_collect := { c.last_collect with
                     id := some swap.objkt_id
                     timestamp := transaction.timestamp }
                   money_spent := c.money_spent
                     ++ [(transaction.amount : ℚ) / 1000000] } })
    ∧ (∀ p₁ p₂ : ParamValue,
        extract_collector_step registries_bigmap tezos_wallets swaps_bigmap st
          { transaction with parameter := p₁ }
        = extract_collector_step registries_bigmap tezos_wallets swaps_bigmap st
          { transaction with parameter := p₂ })
    ∧ ({ c with
          last_collect := { c.last_collect with
            id := some swap.objkt_id
            timestamp := transaction.timestamp }
          money_spent := c.money_spent
            ++ [(transaction.amount : ℚ) / 1000000] }).last_collect.objkt_id
        = c.last_collect.objkt_id
    ∧ (∀ (st₂ : CollState) (tx₂ : CollectTx) (resolved : String) (swap₂ : SwapEntry),
        starts_with_tz tx₂.sender = true →
        st₂.collectors tx₂.sender = none →
        resolve_alias registries_bigmap tezos_wallets tx₂.sender = some resolved →
        swaps_bigmap (param_swap_id tx₂.parameter) = some swap₂ →
        (extract_collector_step registries_bigmap tezos_wallets swaps_bigmap st₂
            tx₂).map CollState.swap_id
          = some (some (param_swap_id tx₂.parameter))) := by
  refine ⟨?_, ?_, rfl, ?_⟩
  · simp [extract_collector_step, hs, hc, hsid, hswap]
  · intro p₁ p₂
    simp [extract_collector_step, hs, hc, hsid, hswap]
  · intro st₂ tx₂ resolved swap₂ hs₂ hc₂ hr₂ hsw₂
    simp [extract_collector_step, hs₂, hc₂, hr₂, hsw₂]

theorem extract_collector_stale_swap_id_witness :
    (starts_with_tz "tz1A" = true
    ∧ (fun w => if w = "tz1A" then some
        (⟨1, "collector", "tz1A", "", false, ⟨"100", none, 1⟩, ⟨"100", none, 1⟩,
          ⟨"collect", 1⟩, [(1 : ℚ)], 0⟩ : CollectorRec) else none) "tz1A" = some
        ⟨1, "collector", "tz1A", "", false, ⟨"100", none, 1⟩, ⟨"100", none, 1⟩,
          ⟨"collect", 1⟩, [(1 : ℚ)], 0⟩
    ∧ (some "s2" : Option String) = some "s2"
    ∧ (fun s => if s = "s2" then some (⟨"200"⟩ : SwapEntry)
        else if s = "s3" then some ⟨"300"⟩ else none) "s2" = some ⟨"200"⟩)
    ∧ ((extract_collector_step (fun _ => none) (fun _ => some ⟨none⟩)
          (fun s => if s = "s2" then some (⟨"200"⟩ : SwapEntry)
            else if s = "s3" then some ⟨"300"⟩ else none)
          ⟨["tz1A"], fun w => if w = "tz1A" then some
            (⟨1, "collector", "tz1A", "", false, ⟨"100", none, 1⟩, ⟨"100", none, 1⟩,
              ⟨"collect", 1⟩, [(1 : ℚ)], 0⟩ : CollectorRec) else none, 2, some "s2"⟩
          ⟨"tz1A", .swapScalar "s3", 2000000, 9⟩ =
        some ⟨["tz1A"],
          fset (fun w => if w = "tz1A" then some
            (⟨1, "collector", "tz1A", "", false, ⟨"100", none, 1⟩, ⟨"100", none, 1⟩,
              ⟨"collect", 1⟩, [(1 : ℚ)], 0⟩ : CollectorRec) else none) "tz1A"
            ⟨1, "collector", "tz1A", "", false, ⟨"100", none, 1⟩,
              ⟨"100", some "200", 9⟩, ⟨"collect", 1⟩,
              [(1 : ℚ), (2000000 : ℚ) / 1000000], 0⟩,
          2, some "s2"⟩)
      ∧ (∀ p₁ p₂ : ParamValue,
          extract_collector_step (fun _ => none) (fun _ => some ⟨none⟩)
            (fun s => if s = "s2" then some (⟨"200"⟩ : SwapEntry)
              else if s = "s3" then some ⟨"300"⟩ else none)
            ⟨["tz1A"], fun w => if w = "tz1A" then some
              (⟨1, "collector", "tz1A", "", false, ⟨"100", none, 1⟩, ⟨"100", none, 1⟩,
                ⟨"collect", 1⟩, [(1 : ℚ)], 0⟩ : CollectorRec) else none, 2, some "s2"⟩
            ⟨"tz1A", p₁, 2000000, 9⟩
          = extract_collector_step (fun _ => none) (fun _ => some ⟨none⟩)
            (fun s => if s = "s2" then some (⟨"200"⟩ : SwapEntry)
              else if s = "s3" then some ⟨"300"⟩ else none)
            ⟨["tz1A"], fun w => if w = "tz1A" then some
              (⟨1, "collector", "tz1A", "", false, ⟨"100", none, 1⟩, ⟨"100", none, 1⟩,
                ⟨"collect", 1⟩, [(1 : ℚ)], 0⟩ : CollectorRec) else none, 2, some "s2"⟩
            ⟨"tz1A", p₂, 2000000, 9⟩)
      ∧ (⟨1, "collector", "tz1A", "", false, ⟨"100", none, 1⟩,
            ⟨"100", some "200", 9⟩, ⟨"collect", 1⟩,
            [(1 : ℚ), (2000000 : ℚ) / 1000000], 0⟩ :
          CollectorRec).last_collect.objkt_id = "100"
      ∧ (∀ (st₂ : CollState) (tx₂ : CollectTx) (resolved : String) (swap₂ : SwapEntry),
          starts_with_tz tx₂.sender = true →
          st₂.collectors tx₂.sender = none →
          resolve_alias (fun _ => none) (fun _ => some ⟨none⟩) tx₂.sender
            = some resolved →
          (fun s => if s = "s2" then some (⟨"200"⟩ : SwapEntry)
            else if s = "s3" then some ⟨"300"⟩ else none)
            (param_swap_id tx₂.parameter) = some swap₂ →
          (extract_collector_step (fun _ => none) (fun _ => some ⟨none⟩)
              (fun s => if s = "s2" then some (⟨"200"⟩ : SwapEntry)
                else if s = "s3" then some ⟨"300"⟩ else none) st₂ tx₂).map
            CollState.swap_id = some (some (param_swap_id tx₂.parameter)))) :=
  ⟨⟨by decide, by decide, rfl, by decide⟩,
   extract_collector_stale_swap_id (fun _ => none) (fun _ => some ⟨none⟩)
     (fun s => if s = "s2" then some ⟨"200"⟩ else if s = "s3" then some ⟨"300"⟩ else none)
     ⟨["tz1A"], fun w => if w = "tz1A" then some
       ⟨1, "collector", "tz1A", "", false, ⟨"100", none, 1⟩, ⟨"100", none, 1⟩,
         ⟨"collect", 1⟩, [(1 : ℚ)], 0⟩ else none, 2, some "s2"⟩
     ⟨"tz1A", .swapScalar "s3", 2000000, 9⟩
     ⟨1, "collector", "tz1A", "", false, ⟨"100", none, 1⟩, ⟨"100", none, 1⟩,
       ⟨"collect", 1⟩, [(1 : ℚ)], 0⟩ "s2" ⟨"200"⟩
     (by decide) (by decide) rfl (by decide)⟩

/-- Claim C5 (amended): the HEN extractors do *not* compare timestamps —
`extract_artist_accounts` overwrites `last_objkt` and
`extract_collector_accounts` overwrites the `last_collect` timestamp
unconditionally on every subsequent sighting, i.e. in arrival order; only
the ask (and auction) loops of `extract_objktcom_collector_accounts`
update the `first_collect`/`last_collect` pointers by strict timestamp
comparison: `first_collect` changes only when the new timestamp is strictly
earlier than the stored first timestamp, and `last_collect` only when it is
strictly later than the stored last timestamp. -/
theorem last_pointers_update_rules
    (registries_bigmap : String → Option String)
    (tezos_wallets : String → Option TezosWallet)
    (swaps_bigmap : String → Option SwapEntry)
    (st : (String → Option ArtistRec) × Nat) (tx : MintTx) (a : ArtistRec)
    (stc : CollState) (ctx : CollectTx) (c : CollectorRec) (sid : String)
    (swap : SwapEntry)
    (asks_bigmap : String → Option AskEntry)
    (collectors : String → Option ObjktcomCollectorRec)
    (atx : AskTx) (oc : ObjktcomCollectorRec) (ask : AskEntry)
    (hs : starts_with_tz tx.initiator = true)
    (ha : st.1 tx.initiator = some a)
    (hcs : starts_with_tz ctx.sender = true)
    (hc : stc.collectors ctx.sender = some c)
    (hsid : stc.swap_id = some sid)
    (hswap : swaps_bigmap sid = some swap)
    (has : starts_with_tz atx.sender = true)
    (hoc : collectors atx.sender = some oc)
    (hask : asks_bigmap atx.parameter = some ask) :
    (extract_artist_step registries_bigmap tezos_wallets st tx
      = some (fset st.1 tx.initiator
          { a with
              last_objkt := ⟨tx.token_id, tx.timestamp⟩
              minted_objkts := a.minted_objkts ++ [tx.token_id] }, st.2))
    ∧ ((extract_collector_step registries_bigmap tezos_wallets swaps_bigmap stc
          ctx).map
        (fun st' => (st'.collectors ctx.sender).map
          (fun c' => c'.last_collect.timestamp))
        = some (some ctx.timestamp))
    ∧ (∃ c', objktcom_ask_step asks_bigmap collectors atx
          = some (fset collectors atx.sender c')
        ∧ c'.last_collect = (if oc.last_collect.timestamp < atx.timestamp
            then ⟨ask.objkt_id, atx.timestamp⟩ else oc.last_collect)
        ∧ c'.first_collect = (if atx.timestamp < oc.first_collect.timestamp
            then ⟨ask.objkt_id, atx.timestamp⟩ else oc.first_collect)) := by
  refine ⟨?_, ?_, ?_⟩
  · simp [extract_artist_step, hs, ha]
  · simp [extract_collector_step, hcs, hc, hsid, hswap, fset]
  · refine ⟨(fun c2 =>
      { c2 with
          ask_objkts := c2.ask_objkts ++ [ask.objkt_id]
          ask_money_spent := c2.ask_money_spent ++ [(atx.amount : ℚ) / 1000000]
          ask_timestamps := c2.ask_timestamps ++ [atx.timestamp] })
      (if oc.last_collect.timestamp < atx.timestamp then
        { (if atx.timestamp < oc.first_collect.timestamp then
            { oc with
                first_collect := ⟨ask.objkt_id, atx.timestamp⟩
                first_interaction := ⟨"ask", atx.timestamp⟩ }
          else oc) with last_collect := ⟨ask.objkt_id, atx.timestamp⟩ }
      else (if atx.timestamp < oc.first_collect.timestamp then
        { oc with
            first_collect := ⟨ask.objkt_id, atx.timestamp⟩
            first_interaction := ⟨"ask", atx.timestamp⟩ }
      else oc)), ?_, ?_, ?_⟩
    · simp [objktcom_ask_step, hask, has, hoc]
    · by_cases h1 : atx.timestamp < oc.first_collect.timestamp <;>
        by_cases h2 : oc.last_collect.timestamp < atx.timestamp <;>
          simp [h1, h2]
    · by_cases h1 : atx.timestamp < oc.first_collect.timestamp <;>
        by_cases h2 : oc.last_collect.timestamp < atx.timestamp <;>
          simp [h1, h2]

theorem last_pointers_update_rules_witness :
    (starts_with_tz "tz1a" = true
    ∧ (fun w => if w = "tz1a" then some
        (⟨1, "artist", "tz1a", "", false, ⟨"1", 5⟩, ⟨"1", 5⟩, ⟨"mint", 5⟩,
          ["1"], [], 0, none, none⟩ : ArtistRec) else none) "tz1a" = some
        ⟨1, "artist", "tz1a", "", false, ⟨"1", 5⟩, ⟨"1", 5⟩, ⟨"mint", 5⟩,
          ["1"], [], 0, none, none⟩
    ∧ starts_with_tz "tz1A" = true
    ∧ (fun w => if w = "tz1A" then some
        (⟨1, "collector", "tz1A", "", false, ⟨"100", none, 1⟩, ⟨"100", none, 1⟩,
          ⟨"collect", 1⟩, [(1 : ℚ)], 0⟩ : CollectorRec) else none) "tz1A" = some
        ⟨1, "collector", "tz1A", "", false, ⟨"100", none, 1⟩, ⟨"100", none, 1⟩,
          ⟨"collect", 1⟩, [(1 : ℚ)], 0⟩
    ∧ (some "s2" : Option String) = some "s2"
    ∧ (fun s => if s = "s2" then some (⟨"200"⟩ : SwapEntry)
        else if s = "s3" then some ⟨"300"⟩ else none) "s2" = some ⟨"200"⟩
    ∧ starts_with_tz "tz1b" = true
    ∧ (fun w => if w = "tz1b" then
        some (objktcom_new_collector "tz1b" "50" 4 "ask") else none) "tz1b"
        = some (objktcom_new_collector "tz1b" "50" 4 "ask")
    ∧ (fun s => if s = "a1" then some (⟨"77"⟩ : AskEntry) else none) "a1"
        = some ⟨"77"⟩)
    ∧ ((extract_artist_step (fun _ => none) (fun _ => some ⟨none⟩)
          (fun w => if w = "tz1a" then some
            (⟨1, "artist", "tz1a", "", false, ⟨"1", 5⟩, ⟨"1", 5⟩, ⟨"mint", 5⟩,
              ["1"], [], 0, none, none⟩ : ArtistRec) else none, 2)
          ⟨"tz1a", "2", 3⟩
        = some (fset (fun w => if w = "tz1a" then some
            (⟨1, "artist", "tz1a", "", false, ⟨"1", 5⟩, ⟨"1", 5⟩, ⟨"mint", 5⟩,
              ["1"], [], 0, none, none⟩ : ArtistRec) else none) "tz1a"
            ⟨1, "artist", "tz1a", "", false, ⟨"1", 5⟩, ⟨"2", 3⟩, ⟨"mint", 5⟩,
              ["1", "2"], [], 0, none, none⟩, 2))
      ∧ ((extract_collector_step (fun _ => none) (fun _ => some ⟨none⟩)
            (fun s => if s = "s2" then some (⟨"200"⟩ : SwapEntry)
              else if s = "s3" then some ⟨"300"⟩ else none)
            ⟨["tz1A"], fun w => if w = "tz1A" then some
              (⟨1, "collector", "tz1A", "", false, ⟨"100", none, 1⟩,
                ⟨"100", none, 1⟩, ⟨"collect", 1⟩, [(1 : ℚ)], 0⟩ : CollectorRec)
              else none, 2, some "s2"⟩
            ⟨"tz1A", .swapScalar "s3", 2000000, 9⟩).map
          (fun st' => (st'.collectors "tz1A").map
            (fun c' => c'.last_collect.timestamp))
          = some (some 9))
      ∧ (∃ c', objktcom_ask_step
            (fun s => if s = "a1" then some (⟨"77"⟩ : AskEntry) else none)
            (fun w => if w = "tz1b" then
              some (objktcom_new_collector "tz1b" "50" 4 "ask") else none)
            ⟨"tz1b", "a1", 3000000, 9⟩
          = some (fset (fun w => if w = "tz1b" then
              some (objktcom_new_collector "tz1b" "50" 4 "ask") else none) "tz1b" c')
          ∧ c'.last_collect =
            (if (objktcom_new_collector "tz1b" "50" 4 "ask").last_collect.timestamp < 9
              then ⟨"77", 9⟩
              else (objktcom_new_collector "tz1b" "50" 4 "ask").last_collect)
          ∧ c'.first_collect =
            (if 9 < (objktcom_new_collector "tz1b" "50" 4 "ask").first_collect.timestamp
              then ⟨"77", 9⟩
              else (objktcom_new_collector "tz1b" "50" 4 "ask").first_collect))) :=
  ⟨⟨by decide, by decide, by decide, by decide, rfl, by decide, by decide,
    by decide, by decide⟩,
   last_pointers_update_rules (fun _ => none) (fun _ => some ⟨none⟩)
     (fun s => if s = "s2" then some ⟨"200"⟩ else if s = "s3" then some ⟨"300"⟩ else none)
     (fun w => if w = "tz1a" then some
       ⟨1, "artist", "tz1a", "", false, ⟨"1", 5⟩, ⟨"1", 5⟩, ⟨"mint", 5⟩,
         ["1"], [], 0, none, none⟩ else none, 2)
     ⟨"tz1a", "2", 3⟩
     ⟨1, "artist", "tz1a", "", false, ⟨"1", 5⟩, ⟨"1", 5⟩, ⟨"mint", 5⟩,
       ["1"], [], 0, none, none⟩
     ⟨["tz1A"], fun w => if w = "tz1A" then some
       ⟨1, "collector", "tz1A", "", false, ⟨"100", none, 1⟩, ⟨"100", none, 1⟩,
         ⟨"collect", 1⟩, [(1 : ℚ)], 0⟩ else none, 2, some "s2"⟩
     ⟨"tz1A", .swapScalar "s3", 2000000, 9⟩
     ⟨1, "collector", "tz1A", "", false, ⟨"100", none, 1⟩, ⟨"100", none, 1⟩,
       ⟨"collect", 1⟩, [(1 : ℚ)], 0⟩ "s2" ⟨"200"⟩
     (fun s => if s = "a1" then some ⟨"77"⟩ else none)
     (fun w => if w = "tz1b" then
       some (objktcom_new_collector "tz1b" "50" 4 "ask") else none)
     ⟨"tz1b", "a1", 3000000, 9⟩ (objktcom_new_collector "tz1b" "50" 4 "ask") ⟨"77"⟩
     (by decide) (by decide) (by decide) (by decide) rfl (by decide)
     (by decide) (by decide) (by decide)⟩

/-! ## Collector-to-artist reclassification (`get_patron_accounts`) -/

/-- The in-place merge of `get_patron_accounts` (lines 1482-1500) when a
collector address is also an artist: the artist record receives the
collector's `first_collect`, `last_collect`, `money_spent` and
`total_money_spent`, and `first_interaction` becomes the collect exactly
when the first collect's timestamp is strictly earlier than the first
mint's (line 1497 compares with strict `<`). -/
def merge_collector_into_artist (collector : CollectorRec) (artist : ArtistRec) :
    ArtistRec :=
  if collector.first_collect.timestamp < artist.first_objkt.timestamp then
    { artist with
        first_collect := some collector.first_collect
        last_collect := some collector.last_collect
        money_spent := collector.money_spent
        total_money_spent := collector.total_money_spent
        first_interaction := ⟨"collect", collector.first_collect.timestamp⟩ }
  else
    { artist with
        first_collect := some collector.first_collect
        last_collect := some collector.last_collect
        money_spent := collector.money_spent
        total_money_spent := collector.total_money_spent }

/-- One iteration of the `get_patron_accounts` loop (lines 1478-1506): a
collector that is also an artist is merged into the artists map; otherwise
it is re-tagged `patron` and added to the patrons dictionary. -/
def patron_step (st : (String → Option ArtistRec) × List (String × CollectorRec))
    (wc : String × CollectorRec) :
    (String → Option ArtistRec) × List (String × CollectorRec) :=
  match st.1 wc.1 with
  | some artist => (fset st.1 wc.1 (merge_collector_into_artist wc.2 artist), st.2)
  | none => (st.1, st.2 ++ [(wc.1, { wc.2 with type := "patron" })])

/-- `get_patron_accounts` (lines 1460-1508): iterate the collectors in
insertion order; return the (mutated) artists map and the patrons
dictionary. -/
def get_patron_accounts (artists : String → Option ArtistRec)
    (collectors : List (String × CollectorRec)) :
    (String → Option ArtistRec) × List (String × CollectorRec) :=
  collectors.foldl patron_step (artists, [])

theorem patron_fold_arts_ne :
    ∀ (l : List (String × CollectorRec))
      (st : (String → Option ArtistRec) × List (String × CollectorRec))
      (w : String), w ∉ l.map Prod.fst → ((l.foldl patron_step st).1) w = st.1 w := by
  intro l
  induction l with
  | nil => intro st w _; rfl
  | cons wc rest ih =>
    intro st w hw
    have hne : w ≠ wc.1 := by
      intro hh; exact hw (by simp [hh])
    have hrest : w ∉ rest.map Prod.fst := by
      intro hh; exact hw (by simp [hh])
    rw [List.foldl_cons, ih _ w hrest]
    rcases h2 : st.1 wc.1 with _ | a <;> simp [patron_step, h2, fset, hne]

theorem patron_fold_arts_none :
    ∀ (l : List (String × CollectorRec))
      (st : (String → Option ArtistRec) × List (String × CollectorRec))
      (w : String), st.1 w = none → ((l.foldl patron_step st).1) w = none := by
  intro l
  induction l with
  | nil => intro st w h; exact h
  | cons wc rest ih =>
    intro st w h
    rw [List.foldl_cons]
    apply ih
    rcases h2 : st.1 wc.1 with _ | a
    · simp [patron_step, h2, h]
    · have hne : w ≠ wc.1 := by
        intro hh; rw [hh, h2] at h; exact Option.noConfusion h
      simp [patron_step, h2, fset, hne, h]

theorem patron_fold_patrons_ext :
    ∀ (l : List (String × CollectorRec))
      (st : (String → Option ArtistRec) × List (String × CollectorRec)),
      ∃ ext, (l.foldl patron_step st).2 = st.2 ++ ext := by
  intro l
  induction l with
  | nil => intro st; exact ⟨[], by simp⟩
  | cons wc rest ih =>
    intro st
    rw [List.foldl_cons]
    rcases h2 : st.1 wc.1 with _ | a
    · rcases ih (st.1, st.2 ++ [(wc.1, { wc.2 with type := "patron" })]) with ⟨ext, hext⟩
      refine ⟨[(wc.1, { wc.2 with type := "patron" })] ++ ext, ?_⟩
      simp [patron_step, h2] at hext ⊢
      rw [hext]
    · rcases ih (fset st.1 wc.1 (merge_collector_into_artist wc.2 a), st.2) with ⟨ext, hext⟩
      refine ⟨ext, ?_⟩
      simp [patron_step, h2] at hext ⊢
      rw [hext]

theorem patron_fold_patrons_ne :
    ∀ (l : List (String × CollectorRec))
      (st : (String → Option ArtistRec) × List (String × CollectorRec))
      (w : String), w ∉ l.map Prod.fst →
      alookup w (l.foldl patron_step st).2 = alookup w st.2 := by
  intro l
  induction l with
  | nil => intro st w _; rfl
  | cons wc rest ih =>
    intro st w hw
    have hne : w ≠ wc.1 := by
      intro hh; exact hw (by simp [hh])
    have hrest : w ∉ rest.map Prod.fst := by
      intro hh; exact hw (by simp [hh])
    rw [List.foldl_cons, ih _ w hrest]
    rcases h2 : st.1 wc.1 with _ | a
    · simp only [patron_step, h2]
      rw [alookup_append]
      rcases alookup w st.2 with _ | v
      · simp [alookup, hne, Ne.symm hne]
      · simp
    · simp [patron_step, h2]

theorem patron_fold_artist_stays :
    ∀ (l : List (String × CollectorRec))
      (st : (String → Option ArtistRec) × List (String × CollectorRec))
      (w : String), (st.1 w).isSome → alookup w st.2 = none →
      ((l.foldl patron_step st).1 w).isSome
        ∧ alookup w (l.foldl patron_step st).2 = none := by
  intro l
  induction l with
  | nil => intro st w h1 h2; exact ⟨h1, h2⟩
  | cons wc rest ih =>
    intro st w h1 h2
    rw [List.foldl_cons]
    rcases h3 : st.1 wc.1 with _ | a
    · have hne : w ≠ wc.1 := by
        intro hh; rw [hh, h3] at h1; simp at h1
      apply ih
      · simpa [patron_step, h3] using h1
      · simp only [patron_step, h3]
        rw [alookup_append, h2]
        simp [alookup, hne, Ne.symm hne]
    · apply ih
      · by_cases hw : w = wc.1
        · subst hw
          simp [patron_step, h3, fset]
        · simpa [patron_step, h3, fset, hw] using h1
      · simpa [patron_step, h3] using h2

theorem collector_totals_ne :
    ∀ (keys : List String) (m : String → Option CollectorRec) (w : String),
      w ∉ keys → collector_totals keys m w = m w := by
  intro keys
  induction keys with
  | nil => intro m w _; rfl
  | cons k rest ih =>
    intro m w hw
    have hne : w ≠ k := by intro hh; exact hw (by simp [hh])
    have hrest : w ∉ rest := by intro hh; exact hw (by simp [hh])
    rw [collector_totals, List.foldl_cons, ← collector_totals, ih _ w hrest]
    rcases h2 : m k with _ | c
    · simp [h2]
    · simp [fset, hne]

theorem collector_totals_spec :
    ∀ (keys : List String) (m : String → Option CollectorRec) (w : String),
      w ∈ keys → ∀ c, collector_totals keys m w = some c →
      c.total_money_spent = c.money_spent.sum := by
  intro keys
  induction keys with
  | nil => intro m w hw; exact absurd hw (by simp)
  | cons k rest ih =>
    intro m w hw c hc
    by_cases hr : w ∈ rest
    · exact ih _ w hr c (by
        rw [collector_totals, List.foldl_cons, ← collector_totals] at hc
        exact hc)
    · have hwk : w = k := by
        rcases List.mem_cons.mp hw with h | h
        · exact h
        · exact absurd h hr
      subst hwk
      rw [collector_totals, List.foldl_cons, ← collector_totals,
        collector_totals_ne rest _ w hr] at hc
      rcases h2 : m w with _ | c₀
      · simp [h2] at hc
      · rw [h2] at hc
        simp only [fset, if_pos rfl] at hc
        cases hc
        rfl

/-- Claim C6: for an address `w` present in both the artists map and the
collectors dictionary (the collectors' keys being unique, as Python dict
keys are), `get_patron_accounts` leaves `w` out of the patrons output and
merges the collector into the artist record: the artist receives the
collector's `first_collect`, `last_collect` and `money_spent`; its
`total_money_spent` equals the sum of the collector's `money_spent` list
(given the invariant `total_money_spent = sum(money_spent)` that
`extract_collector_accounts`' final pass establishes — last conjunct); and
`first_interaction` becomes the collect exactly when the first collect's
timestamp is strictly earlier than the first mint's.  Every collector
address not in the artists map appears in the patrons output re-tagged
`"patron"`. -/
theorem get_patron_accounts_reclassifies_artists
    (artists : String → Option ArtistRec)
    (pre post : List (String × CollectorRec)) (w : String)
    (a : ArtistRec) (c : CollectorRec)
    (ha : artists w = some a)
    (hc : c.total_money_spent = c.money_spent.sum)
    (hpre : w ∉ pre.map Prod.fst) (hpost : w ∉ post.map Prod.fst) :
    (alookup w (get_patron_accounts artists (pre ++ (w, c) :: post)).2 = none)
    ∧ ((get_patron_accounts artists (pre ++ (w, c) :: post)).1 w
        = some (merge_collector_into_artist c a))
    ∧ (merge_collector_into_artist c a).first_collect = some c.first_collect
    ∧ (merge_collector_into_artist c a).last_collect = some c.last_collect
    ∧ (merge_collector_into_artist c a).money_spent = c.money_spent
    ∧ (merge_collector_into_artist c a).total_money_spent = c.money_spent.sum
    ∧ (merge_collector_into_artist c a).first_interaction
        = (if c.first_collect.timestamp < a.first_objkt.timestamp
            then ⟨"collect", c.first_collect.timestamp⟩ else a.first_interaction)
    ∧ (∀ (l : List (String × CollectorRec)) (w' : String) (c' : CollectorRec)
        (pre2 post2 : List (String × CollectorRec)),
        l = pre2 ++ (w', c') :: post2 → w' ∉ pre2.map Prod.fst →
        artists w' = none →
        alookup w' (get_patron_accounts artists l).2
          = some { c' with type := "patron" })
    ∧ (∀ (keys : List String) (m : String → Option CollectorRec) (w₂ : String)
        (c₂ : CollectorRec), w₂ ∈ keys → collector_totals keys m w₂ = some c₂ →
        c₂.total_money_spent = c₂.money_spent.sum) := by
  refine ⟨?_, ?_, ?_, ?_, ?_, ?_, ?_, ?_, ?_⟩
  · exact (patron_fold_artist_stays (pre ++ (w, c) :: post) (artists, []) w
      (by simp [ha]) rfl).2
  · rw [get_patron_accounts, List.foldl_append, List.foldl_cons]
    have hpreeq : (pre.foldl patron_step (artists, [])).1 w = some a := by
      rw [patron_fold_arts_ne pre (artists, []) w hpre]; exact ha
    have hstep : patron_step (pre.foldl patron_step (artists, [])) (w, c) =
        (fset (pre.foldl patron_step (artists, [])).1 w
          (merge_collector_into_artist c a),
         (pre.foldl patron_step (artists, [])).2) := by
      simp [patron_step, hpreeq]
    rw [hstep, patron_fold_arts_ne post _ w hpost]
    simp [fset]
  · unfold merge_collector_into_artist; split <;> rfl
  · unfold merge_collector_into_artist; split <;> rfl
  · unfold merge_collector_into_artist; split <;> rfl
  · unfold merge_collector_into_artist; split <;> simp [hc]
  · unfold merge_collector_into_artist; split <;> simp_all
  · intro l w' c' pre2 post2 hl hpre2 hnone
    subst hl
    rw [get_patron_accounts, List.foldl_append, List.foldl_cons]
    have h0 : (pre2.foldl patron_step (artists, [])).1 w' = none :=
      patron_fold_arts_none pre2 (artists, []) w' hnone
    have hstep : patron_step (pre2.foldl patron_step (artists, [])) (w', c') =
        ((pre2.foldl patron_step (artists, [])).1,
         (pre2.foldl patron_step (artists, [])).2
           ++ [(w', { c' with type := "patron" })]) := by
      simp [patron_step, h0]
    rw [hstep]
    rcases patron_fold_patrons_ext post2
      ((pre2.foldl patron_step (artists, [])).1,
       (pre2.foldl patron_step (artists, [])).2
         ++ [(w', { c' with type := "patron" })]) with ⟨ext, hext⟩
    rw [hext]
    have h2 : alookup w' (pre2.foldl patron_step (artists, [])).2 = none := by
      have := patron_fold_patrons_ne pre2 (artists, []) w' hpre2
      rw [this]; rfl
    rw [alookup_append, alookup_append, h2]
    simp [alookup]
  · intro keys m w₂ c₂ hmem htot
    exact collector_totals_spec keys m w₂ hmem c₂ htot

theorem get_patron_accounts_reclassifies_artists_witness :
    ((fun w => if w = "tz1A" then some
        (⟨1, "artist", "tz1A", "", false, ⟨"1", 5⟩, ⟨"1", 5⟩, ⟨"mint", 5⟩,
          ["1"], [], 0, none, none⟩ : ArtistRec) else none) "tz1A" = some
        ⟨1, "artist", "tz1A", "", false, ⟨"1", 5⟩, ⟨"1", 5⟩, ⟨"mint", 5⟩,
          ["1"], [], 0, none, none⟩
    ∧ (⟨1, "collector", "tz1A", "", false, ⟨"9", none, 3⟩, ⟨"9", none, 3⟩,
        ⟨"collect", 3⟩, [(2 : ℚ)], 2⟩ : CollectorRec).total_money_spent
      = (⟨1, "collector", "tz1A", "", false, ⟨"9", none, 3⟩, ⟨"9", none, 3⟩,
        ⟨"collect", 3⟩, [(2 : ℚ)], 2⟩ : CollectorRec).money_spent.sum
    ∧ "tz1A" ∉ ([] : List (String × CollectorRec)).map Prod.fst
    ∧ "tz1A" ∉ ([("tz1B", (⟨2, "collector", "tz1B", "", false, ⟨"7", none, 4⟩,
        ⟨"7", none, 4⟩, ⟨"collect", 4⟩, [], 0⟩ : CollectorRec))]).map Prod.fst)
    ∧ ((alookup "tz1A" (get_patron_accounts
        (fun w => if w = "tz1A" then some
          (⟨1, "artist", "tz1A", "", false, ⟨"1", 5⟩, ⟨"1", 5⟩, ⟨"mint", 5⟩,
            ["1"], [], 0, none, none⟩ : ArtistRec) else none)
        ([] ++ ("tz1A", ⟨1, "collector", "tz1A", "", false, ⟨"9", none, 3⟩,
          ⟨"9", none, 3⟩, ⟨"collect", 3⟩, [(2 : ℚ)], 2⟩) ::
          [("tz1B", ⟨2, "collector", "tz1B", "", false, ⟨"7", none, 4⟩,
            ⟨"7", none, 4⟩, ⟨"collect", 4⟩, [], 0⟩)])).2 = none)
    ∧ ((get_patron_accounts
        (fun w => if w = "tz1A" then some
          (⟨1, "artist", "tz1A", "", false, ⟨"1", 5⟩, ⟨"1", 5⟩, ⟨"mint", 5⟩,
            ["1"], [], 0, none, none⟩ : ArtistRec) else none)
        ([] ++ ("tz1A", ⟨1, "collector", "tz1A", "", false, ⟨"9", none, 3⟩,
          ⟨"9", none, 3⟩, ⟨"collect", 3⟩, [(2 : ℚ)], 2⟩) ::
          [("tz1B", ⟨2, "collector", "tz1B", "", false, ⟨"7", none, 4⟩,
            ⟨"7", none, 4⟩, ⟨"collect", 4⟩, [], 0⟩)])).1 "tz1A"
        = some (merge_collector_into_artist
            ⟨1, "collector", "tz1A", "", false, ⟨"9", none, 3⟩, ⟨"9", none, 3⟩,
              ⟨"collect", 3⟩, [(2 : ℚ)], 2⟩
            ⟨1, "artist", "tz1A", "", false, ⟨"1", 5⟩, ⟨"1", 5⟩, ⟨"mint", 5⟩,
              ["1"], [], 0, none, none⟩))
    ∧ (merge_collector_into_artist
        ⟨1, "collector", "tz1A", "", false, ⟨"9", none, 3⟩, ⟨"9", none, 3⟩,
          ⟨"collect", 3⟩, [(2 : ℚ)], 2⟩
        ⟨1, "artist", "tz1A", "", false, ⟨"1", 5⟩, ⟨"1", 5⟩, ⟨"mint", 5⟩,
          ["1"], [], 0, none, none⟩).first_collect = some ⟨"9", none, 3⟩
    ∧ (merge_collector_into_artist
        ⟨1, "collector", "tz1A", "", false, ⟨"9", none, 3⟩, ⟨"9", none, 3⟩,
          ⟨"collect", 3⟩, [(2 : ℚ)], 2⟩
        ⟨1, "artist", "tz1A", "", false, ⟨"1", 5⟩, ⟨"1", 5⟩, ⟨"mint", 5⟩,
          ["1"], [], 0, none, none⟩).last_collect = some ⟨"9", none, 3⟩
    ∧ (merge_collector_into_artist
        ⟨1, "collector", "tz1A", "", false, ⟨"9", none, 3⟩, ⟨"9", none, 3⟩,
          ⟨"collect", 3⟩, [(2 : ℚ)], 2⟩
        ⟨1, "artist", "tz1A", "", false, ⟨"1", 5⟩, ⟨"1", 5⟩, ⟨"mint", 5⟩,
          ["1"], [], 0, none, none⟩).money_spent = [(2 : ℚ)]
    ∧ (merge_collector_into_artist
        ⟨1, "collector", "tz1A", "", false, ⟨"9", none, 3⟩, ⟨"9", none, 3⟩,
          ⟨"collect", 3⟩, [(2 : ℚ)], 2⟩
        ⟨1, "artist", "tz1A", "", false, ⟨"1", 5⟩, ⟨"1", 5⟩, ⟨"mint", 5⟩,
          ["1"], [], 0, none, none⟩).total_money_spent = ([(2 : ℚ)]).sum
    ∧ (merge_collector_into_artist
        ⟨1, "collector", "tz1A", "", false, ⟨"9", none, 3⟩, ⟨"9", none, 3⟩,
          ⟨"collect", 3⟩, [(2 : ℚ)], 2⟩
        ⟨1, "artist", "tz1A", "", false, ⟨"1", 5⟩, ⟨"1", 5⟩, ⟨"mint", 5⟩,
          ["1"], [], 0, none, none⟩).first_interaction
        = (if (3 : Nat) < 5 then (⟨"collect", 3⟩ : Interaction) else ⟨"mint", 5⟩)
    ∧ (∀ (l : List (String × CollectorRec)) (w' : String) (c' : CollectorRec)
        (pre2 post2 : List (String × CollectorRec)),
        l = pre2 ++ (w', c') :: post2 → w' ∉ pre2.map Prod.fst →
        (fun w => if w = "tz1A" then some
          (⟨1, "artist", "tz1A", "", false, ⟨"1", 5⟩, ⟨"1", 5⟩, ⟨"mint", 5⟩,
            ["1"], [], 0, none, none⟩ : ArtistRec) else none) w' = none →
        alookup w' (get_patron_accounts
          (fun w => if w = "tz1A" then some
            (⟨1, "artist", "tz1A", "", false, ⟨"1", 5⟩, ⟨"1", 5⟩, ⟨"mint", 5⟩,
              ["1"], [], 0, none, none⟩ : ArtistRec) else none) l).2
          = some { c' with type := "patron" })
    ∧ (∀ (keys : List String) (m : String → Option CollectorRec) (w₂ : String)
        (c₂ : CollectorRec), w₂ ∈ keys → collector_totals keys m w₂ = some c₂ →
        c₂.total_money_spent = c₂.money_spent.sum)) :=
  ⟨⟨by decide, by simp, by simp, by decide⟩,
   get_patron_accounts_reclassifies_artists
     (fun w => if w = "tz1A" then some
       ⟨1, "artist", "tz1A", "", false, ⟨"1", 5⟩, ⟨"1", 5⟩, ⟨"mint", 5⟩,
         ["1"], [], 0, none, none⟩ else none)
     [] [("tz1B", ⟨2, "collector", "tz1B", "", false, ⟨"7", none, 4⟩,
       ⟨"7", none, 4⟩, ⟨"collect", 4⟩, [], 0⟩)] "tz1A"
     ⟨1, "artist", "tz1A", "", false, ⟨"1", 5⟩, ⟨"1", 5⟩, ⟨"mint", 5⟩,
       ["1"], [], 0, none, none⟩
     ⟨1, "collector", "tz1A", "", false, ⟨"9", none, 3⟩, ⟨"9", none, 3⟩,
       ⟨"collect", 3⟩, [(2 : ℚ)], 2⟩
     (by decide) (by simp) (by simp) (by decide)⟩

/-! ## Metadata enrichment (`add_accounts_metadata`)

The TzKT metadata lookup can raise (modelled by `Except Unit`) or return
`None` (non-200 response).  The oracle takes the wallet id and the attempt
number (0 for the first call, 1 for the retry), so that a transient failure
is expressible.  Since Python mutates the accounts dictionary in place, the
error case carries the partially updated accounts, making visible that no
account after the failing one is processed. -/

/-- An account record: the extractor-produced fields, as a dictionary. -/
abbrev Account := List (String × String)

/-- `for keyword, value in metadata.items(): account[keyword] = value`
(lines 1854-1855): fold the metadata pairs into the account dictionary,
later keys overwriting same-named existing fields. -/
def merge_metadata (account : Account) (metadata : List (String × String)) :
    Account :=
  metadata.foldl (fun acc kv => dictSet acc kv.1 kv.2) account

/-- The last value bound to `k` in a metadata pair list. -/
def md_last (k : String) : List (String × String) → Option String
  | [] => none
  | kv :: rest =>
    match md_last k rest with
    | some v => some v
    | none => if kv.1 = k then some kv.2 else none

/-- The `try/except` of lines 1847-1851: call the lookup; on any exception
retry exactly once, unconditionally; the retry's outcome (including a
second exception) is the result. -/
def get_account_metadata_try
    (oracle : String → Nat → Except Unit (Option (List (String × String))))
    (wallet_id : String) : Except Unit (Option (List (String × String))) :=
  match oracle wallet_id 0 with
  | .ok metadata => .ok metadata
  | .error _ => oracle wallet_id 1

/-- The per-wallet loop of `add_accounts_metadata` (lines 1844-1860) over
the selected wallet-id slice: a `None` result adds nothing; metadata pairs
are merged into the account record; an unrecovered exception aborts, the
accounts processed so far keeping their updates. -/
def add_accounts_metadata_go
    (oracle : String → Nat → Except Unit (Option (List (String × String)))) :
    List String → List (String × Account) →
    Except (List (String × Account)) (List (String × Account))
  | [], accounts => .ok accounts
  | wallet_id :: rest, accounts =>
    match get_account_metadata_try oracle wallet_id with
    | .error _ => .error accounts
    | .ok none => add_accounts_metadata_go oracle rest accounts
    | .ok (some metadata) =>
      add_accounts_metadata_go oracle rest
        (accounts.map (fun kv =>
          if kv.1 = wallet_id then (kv.1, merge_metadata kv.2 metadata) else kv))

/-- `add_accounts_metadata` (lines 1813-1860): clamp `to_account_index` to
the number of accounts (`None` meaning all of them), slice the wallet-id
list (`list(accounts.keys())[from:to]`), and run the loop. -/
def add_accounts_metadata
    (oracle : String → Nat → Except Unit (Option (List (String × String))))
    (accounts : List (String × Account)) (from_account_index : Nat)
    (to_account_index : Option Nat) :
    Except (List (String × Account)) (List (String × Account)) :=
  add_accounts_metadata_go oracle
    (((accounts.map Prod.fst).take
      (match to_account_index with
        | none => accounts.length
        | some t => if accounts.length < t then accounts.length else t)).drop
      from_account_index)
    accounts

/-- The pure effect of processing a wallet-id list when every lookup
(after its possible retry) succeeds: merge each wallet's metadata. -/
def apply_metadata_ok
    (oracle : String → Nat → Except Unit (Option (List (String × String))))
    (wallet_ids : List String) (accounts : List (String × Account)) :
    List (String × Account) :=
  wallet_ids.foldl
    (fun accs wallet_id =>
      match get_account_metadata_try oracle wallet_id with
      | .ok (some metadata) =>
        accs.map (fun kv =>
          if kv.1 = wallet_id then (kv.1, merge_metadata kv.2 metadata) else kv)
      | _ => accs)
    accounts

theorem merge_metadata_alookup (k : String) :
    ∀ (metadata : List (String × String)) (account : Account),
      alookup k (merge_metadata account metadata) =
        match md_last k metadata with
        | some v => some v
        | none => alookup k account := by
  intro metadata
  induction metadata with
  | nil => intro account; simp [merge_metadata, md_last]
  | cons kv rest ih =>
    intro account
    rw [merge_metadata, List.foldl_cons, ← merge_metadata, ih, md_last]
    rcases md_last k rest with _ | v
    · simp only []
      rw [dictSet_alookup]
      by_cases hk : kv.1 = k
      · subst hk; simp
      · have hk' : ¬ k = kv.1 := fun hh => hk hh.symm
        simp [hk, hk']
    · simp

theorem add_accounts_metadata_go_abort
    (oracle : String → Nat → Except Unit (Option (List (String × String))))
    (w : String) (ws2 : List String) :
    ∀ (ws1 : List String) (accounts : List (String × Account)),
      (∀ v ∈ ws1, ∃ m, get_account_metadata_try oracle v = .ok m) →
      get_account_metadata_try oracle w = .error () →
      add_accounts_metadata_go oracle (ws1 ++ w :: ws2) accounts
        = .error (apply_metadata_ok oracle ws1 accounts) := by
  intro ws1
  induction ws1 with
  | nil =>
    intro accounts _ h2
    simp [add_accounts_metadata_go, h2, apply_metadata_ok]
  | cons v rest ih =>
    intro accounts h1 h2
    rcases h1 v (by simp) with ⟨m, hm⟩
    have hrest : ∀ u ∈ rest, ∃ m, get_account_metadata_try oracle u = .ok m :=
      fun u hu => h1 u (List.mem_cons_of_mem _ hu)
    rcases m with _ | metadata
    · rw [List.cons_append, add_accounts_metadata_go, hm,
        apply_metadata_ok, List.foldl_cons, ← apply_metadata_ok, hm]
      exact ih accounts hrest h2
    · rw [List.cons_append, add_accounts_metadata_go, hm,
        apply_metadata_ok, List.foldl_cons, ← apply_metadata_ok, hm]
      exact ih _ hrest h2

theorem add_accounts_metadata_go_ok
    (oracle : String → Nat → Except Unit (Option (List (String × String)))) :
    ∀ (ws : List String) (accounts : List (String × Account)),
      (∀ v ∈ ws, ∃ m, get_account_metadata_try oracle v = .ok m) →
      add_accounts_metadata_go oracle ws accounts
        = .ok (apply_metadata_ok oracle ws accounts) := by
  intro ws
  induction ws with
  | nil =>
    intro accounts _
    simp [add_accounts_metadata_go, apply_metadata_ok]
  | cons v rest ih =>
    intro accounts h1
    rcases h1 v (by simp) with ⟨m, hm⟩
    have hrest : ∀ u ∈ rest, ∃ m, get_account_metadata_try oracle u = .ok m :=
      fun u hu => h1 u (List.mem_cons_of_mem _ hu)
    rcases m with _ | metadata
    · rw [add_accounts_metadata_go, hm,
        apply_metadata_ok, List.foldl_cons, ← apply_metadata_ok, hm]
      exact ih accounts hrest
    · rw [add_accounts_metadata_go, hm,
        apply_metadata_ok, List.foldl_cons, ← apply_metadata_ok, hm]
      exact ih _ hrest

/-- Claim C8: in `add_accounts_metadata`, (i) a successful first lookup is
used as-is; (ii) a failing lookup is retried exactly once — the result is
the retry's result, so a second failure propagates; (iii) when the retry
also fails for some wallet in the selected range, the whole batch aborts
with an exception: wallets before the failing one keep their merged
metadata and no later wallet is processed; (iv) when every lookup (after
its possible retry) succeeds the whole slice is processed; and (v) returned
metadata pairs are merged into the account record with later keys
overwriting same-named existing fields (the value of the last metadata pair
for a key wins over the account's previous value). -/
theorem add_accounts_metadata_retry_merge :
    (∀ (oracle : String → Nat → Except Unit (Option (List (String × String))))
      (wallet_id : String) (m : Option (List (String × String))),
      oracle wallet_id 0 = .ok m →
      get_account_metadata_try oracle wallet_id = .ok m)
    ∧ (∀ (oracle : String → Nat → Except Unit (Option (List (String × String))))
        (wallet_id : String) (e : Unit), oracle wallet_id 0 = .error e →
        get_account_metadata_try oracle wallet_id = oracle wallet_id 1)
    ∧ (∀ (oracle : String → Nat → Except Unit (Option (List (String × String))))
        (ws1 : List String) (w : String) (ws2 : List String)
        (accounts : List (String × Account)),
        (∀ v ∈ ws1, ∃ m, get_account_metadata_try oracle v = .ok m) →
        get_account_metadata_try oracle w = .error () →
        add_accounts_metadata_go oracle (ws1 ++ w :: ws2) accounts
          = .error (apply_metadata_ok oracle ws1 accounts))
    ∧ (∀ (oracle : String → Nat → Except Unit (Option (List (String × String))))
        (ws : List String) (accounts : List (String × Account)),
        (∀ v ∈ ws, ∃ m, get_account_metadata_try oracle v = .ok m) →
        add_accounts_metadata_go oracle ws accounts
          = .ok (apply_metadata_ok oracle ws accounts))
    ∧ (∀ (k : String) (metadata : List (String × String)) (account : Account),
        alookup k (merge_metadata account metadata) =
          match md_last k metadata with
          | some v => some v
          | none => alookup k account) := by
  refine ⟨?_, ?_, ?_, ?_, ?_⟩
  · intro oracle wallet_id m h
    simp [get_account_metadata_try, h]
  · intro oracle wallet_id e h
    simp [get_account_metadata_try, h]
  · intro oracle ws1 w ws2 accounts h1 h2
    exact add_accounts_metadata_go_abort oracle w ws2 ws1 accounts h1 h2
  · intro oracle ws accounts h1
    exact add_accounts_metadata_go_ok oracle ws accounts h1
  · intro k metadata account
    exact merge_metadata_alookup k metadata account

theorem add_accounts_metadata_retry_merge_witness :
    ((∀ v ∈ ["tz1R"], ∃ m, get_account_metadata_try
        (fun w attempt =>
          if w = "tz1R" then
            (if attempt = 0 then .error () else .ok (some [("alias", "X")]))
          else if w = "tz1F" then .error ()
          else .ok none) v = .ok m)
    ∧ get_account_metadata_try
        (fun w attempt =>
          if w = "tz1R" then
            (if attempt = 0 then .error () else .ok (some [("alias", "X")]))
          else if w = "tz1F" then .error ()
          else .ok none) "tz1F" = .error ())
    ∧ add_accounts_metadata_go
        (fun w attempt =>
          if w = "tz1R" then
            (if attempt = 0 then .error () else .ok (some [("alias", "X")]))
          else if w = "tz1F" then .error ()
          else .ok none)
        (["tz1R"] ++ "tz1F" :: ["tz1Z"])
        [("tz1R", [("alias", "old")]), ("tz1F", []), ("tz1Z", [])]
      = .error (apply_metadata_ok
          (fun w attempt =>
            if w = "tz1R" then
              (if attempt = 0 then .error () else .ok (some [("alias", "X")]))
            else if w = "tz1F" then .error ()
            else .ok none) ["tz1R"]
          [("tz1R", [("alias", "old")]), ("tz1F", []), ("tz1Z", [])]) := by
  have h1 : ∀ v ∈ ["tz1R"], ∃ m, get_account_metadata_try
      (fun w attempt =>
        if w = "tz1R" then
          (if attempt = 0 then .error () else .ok (some [("alias", "X")]))
        else if w = "tz1F" then .error ()
        else .ok none) v = .ok m := by
    intro v hv
    simp at hv
    subst hv
    exact ⟨some [("alias", "X")], rfl⟩
  have h2 : get_account_metadata_try
      (fun w attempt =>
        if w = "tz1R" then
          (if attempt = 0 then .error () else .ok (some [("alias", "X")]))
        else if w = "tz1F" then .error ()
        else .ok none) "tz1F" = .error () := rfl
  exact ⟨⟨h1, h2⟩,
    add_accounts_metadata_retry_merge.2.2.1
      (fun w attempt =>
        if w = "tz1R" then
          (if attempt = 0 then .error () else .ok (some [("alias", "X")]))
        else if w = "tz1F" then .error ()
        else .ok none)
      ["tz1R"] "tz1F" ["tz1Z"]
      [("tz1R", [("alias", "old")]), ("tz1F", []), ("tz1Z", [])] h1 h2⟩
